import Mathlib

/-!
# Verification of the scraping coordinator, duplicate matcher and rate limiter

This file gives a shallow embedding, in Lean 4, of the identity-relevant parts
of the browser-extension scraper found in this repository:

* the duplicate matcher of `src/background/service-worker.js`
  (`normalizeUrl`, `extractCompanySlug`, `normalizeName`, `isDuplicateCompany`,
  `saveCompanyData`) — the side panel's `isDuplicate` in
  `src/sidepanel/sidepanel.js` is character-for-character the same logic over
  `this.companies`, so one embedding covers both;
* the side panel's `importCompanies` merge loop;
* the rate limiter (`src/utils/rate-limiter.js` and the inlined copy
  `waitWithRateLimit` of the service worker);
* the scraping coordinator's drive loop (`processCurrentPage`,
  `processCompanyQueue`, `processCompany`, `goToNextPage`,
  `completeScraping`, `pauseScraping`, `resumeScraping`, `startScraping`).

JavaScript strings are modelled as `List Char` (ASCII fragment, which covers
every string the proofs touch); missing / `undefined` values as `Option`;
JavaScript's asynchronous environment (tab loads, content-script responses,
button clicks) as explicit environment records consulted at the program
points where the source awaits them.  Timing waits (`setTimeout`,
`waitWithRateLimit`) have no observable effect on the modelled state and are
dropped; the rate limiter's arithmetic is modelled separately over `ℚ`.
-/

namespace Scraper

/-- JavaScript strings, modelled as lists of characters. -/
abbrev Str := List Char

/-! ## String helpers (`split`, `trim`, `toLowerCase`, `replace` on anchored
regular expressions), each mirroring the exact JavaScript operation used by
the source. -/

/-- `url.split('?')[0]` — everything before the first `'?'`. -/
def splitQ (s : Str) : Str := s.takeWhile (fun c => c != '?')

/-- `s.split('#')[0]` — everything before the first `'#'`. -/
def splitH (s : Str) : Str := s.takeWhile (fun c => c != '#')

/-- Strip trailing whitespace. -/
def trimRight (s : Str) : Str :=
  (s.reverse.dropWhile Char.isWhitespace).reverse

/-- `String.prototype.trim`: strip leading and trailing whitespace. -/
def jsTrim (s : Str) : Str := trimRight (s.dropWhile Char.isWhitespace)

/-- `String.prototype.toLowerCase` (ASCII fragment). -/
def lowerL (s : Str) : Str := s.map Char.toLower

/-- `normalized.replace(/^https?:\/\//, '')`. -/
def stripProtocol : Str → Str
  | 'h' :: 't' :: 't' :: 'p' :: 's' :: ':' :: '/' :: '/' :: rest => rest
  | 'h' :: 't' :: 't' :: 'p' :: ':' :: '/' :: '/' :: rest => rest
  | s => s

/-- `normalized.replace(/^www\./, '')`. -/
def stripWww : Str → Str
  | 'w' :: 'w' :: 'w' :: '.' :: rest => rest
  | s => s

/-- `normalized.replace(/\/+$/, '')` — drop every trailing `'/'`. -/
def rstripSlash (s : Str) : Str :=
  (s.reverse.dropWhile (fun c => c == '/')).reverse

/-- The literal `'linkedin.com/company/'` that scopes detail-page URLs. -/
def companyLit : Str := "linkedin.com/company/".toList

/-- `normalized.match(/linkedin\.com\/company\/([^\/]+)/)`: find the leftmost
position where the literal occurs followed by at least one non-`'/'`
character, and return the maximal run of non-`'/'` characters after it (the
company slug).  A failed attempt restarts one character later, exactly like
the regex engine. -/
def linkedinSlug : Str → Option Str
  | [] => none
  | c :: rest =>
    if companyLit.isPrefixOf (c :: rest) then
      let slug := ((c :: rest).drop companyLit.length).takeWhile (fun ch => ch != '/')
      if slug.isEmpty then linkedinSlug rest else some slug
    else linkedinSlug rest

/-- `s.includes(needle)` for a non-empty needle: does the needle occur as a
contiguous segment of `s`? -/
def containsSeg (needle : Str) : Str → Bool
  | [] => false
  | c :: rest => needle.isPrefixOf (c :: rest) || containsSeg needle rest

/-- `s.includes('linkedin.com/company/')`. -/
def containsLit (s : Str) : Bool := containsSeg companyLit s

/-! ## The duplicate matcher (service worker lines 723–885; side panel lines
1491–1602). -/

/-- The identity-relevant projection of a collected record: its detail-page
`url` and its `name`, each possibly absent (`undefined`).  The remaining
fields (`website`, `industry`, `phone`, `headquarters`, `timestamp`) are never
read by the matcher, the store gate, or the coordinator, so they are not
modelled. -/
structure Company where
  url : Option Str
  name : Option Str
deriving DecidableEq, Repr

/-- `normalizeUrl(url)` (service worker lines 723–761).  `null`/missing,
`''` (falsy) and the literal `'N/A'` all give `null`; otherwise:
query/fragment split, `trim`, lowercase, protocol and `www.` stripping, then
either the canonical `linkedin.com/company/<slug>` collapse (when the
slug regex matches — which also entails `includes('linkedin.com/company/')`)
or trailing-slash stripping, with `'' || null` as the final step. -/
def normStr (url : Str) : Str :=
  stripWww (stripProtocol (lowerL (jsTrim (splitH (splitQ url)))))

/-- The branch on the slug regex followed by trailing-slash stripping and
the final `'' || null`. -/
def coreOf (n : Str) : Option Str :=
  match linkedinSlug n with
  | some slug => some (companyLit ++ slug)
  | none =>
    let n2 := rstripSlash n
    if n2 = [] then none else some n2

def normalizeUrl (u : Option Str) : Option Str :=
  match u with
  | none => none
  | some url =>
    if url = [] then none
    else if url = "N/A".toList then none
    else coreOf (normStr url)

/-- `extractCompanySlug(url)` (service worker lines 767–775). -/
def extractCompanySlug (u : Option Str) : Option Str :=
  match normalizeUrl u with
  | none => none
  | some n => linkedinSlug n

/-- `normalizeName(name)` (service worker lines 780–783): `null`/missing, `''`
and exactly `'N/A'` give `null`; otherwise lowercase then trim.  Note the
result may be the (falsy) empty string, e.g. for a blank name. -/
def normalizeName (n : Option Str) : Option Str :=
  match n with
  | none => none
  | some s =>
    if s = [] then none
    else if s = "N/A".toList then none
    else some (jsTrim (lowerL s))

/-- One alternative of the legal-entity suffix regex
`/\s+(inc|llc|ltd|corp|corporation|company|co)\.?$/i`. -/
def legalWords : List Str :=
  ["inc".toList, "llc".toList, "ltd".toList, "corp".toList,
   "corporation".toList, "company".toList, "co".toList]

/-- Does `s` consist exactly of one-or-more whitespace characters, a legal
word, and an optional final `'.'`?  (The whole-tail match of the suffix
regex at one start position.) -/
def legalSuffixWhole (s : Str) : Bool :=
  let ws := s.takeWhile Char.isWhitespace
  let rest := s.dropWhile Char.isWhitespace
  !ws.isEmpty &&
    (legalWords.contains rest ||
      (!rest.isEmpty && rest.getLast? == some '.' && legalWords.contains rest.dropLast))

/-- `name.replace(/\s+(inc|llc|ltd|corp|corporation|company|co)\.?$/i, '')`:
remove the leftmost end-anchored suffix match, if any. -/
def legalReplace : Str → Str
  | [] => []
  | c :: rest => if legalSuffixWhole (c :: rest) then [] else c :: legalReplace rest

/-- The cleaned form used by the fuzzy name comparison:
`name.replace(suffixRegex, '').trim()`. -/
def cleanName (s : Str) : Str := jsTrim (legalReplace s)

/-- Strategy 1 element predicate (service worker lines 798–816): normalized
URL equality, with a nested slug comparison for `linkedin.com/company/`
URLs. -/
def strat1Pred (cu : Str) (cslug : Option Str) (c : Company) : Bool :=
  match normalizeUrl c.url with
  | none => false
  | some eu =>
    eu == cu ||
      (match cslug with
       | none => false
       | some s =>
         containsLit eu &&
           (match extractCompanySlug c.url with
            | none => false
            | some es => es == s))

/-- Strategy 3 element predicate (service worker lines 840–859): exact
normalized-name equality or fuzzy (legal-suffix-stripped) equality, guarded
by the existing name being truthy and not the literal `'n/a'`. -/
def strat3Pred (cn : Str) (c : Company) : Bool :=
  match normalizeName c.name with
  | none => false
  | some en =>
    if en = [] then false
    else if en = "n/a".toList then false
    else
      en == cn ||
        (cleanName en == cleanName cn && decide (3 < (cleanName en).length))

/-- `isDuplicateCompany(company, companies)` (service worker lines 789–868):
`null` candidate gives `false`; otherwise the three find-passes of the
source, short-circuiting in order. -/
def isDuplicateCompany (company : Option Company) (companies : List Company) : Bool :=
  match company with
  | none => false
  | some comp =>
    let cUrl := normalizeUrl comp.url
    let cName := normalizeName comp.name
    let cSlug := extractCompanySlug comp.url
    (match cUrl with
     | none => false
     | some cu => companies.any (strat1Pred cu cSlug)) ||
    (match cSlug with
     | none => false
     | some s =>
       companies.any (fun c =>
         match extractCompanySlug c.url with
         | none => false
         | some es => es == s)) ||
    (match cName with
     | none => false
     | some cn => if cn = [] then false else companies.any (strat3Pred cn))

/-- `saveCompanyData(company)` (service worker lines 873–885), as a pure
function from the candidate and the stored collection to the returned flag
and the new collection. -/
def saveCompanyData (company : Company) (companies : List Company) :
    Bool × List Company :=
  if isDuplicateCompany (some company) companies then (false, companies)
  else (true, companies ++ [company])

/-- `importCompanies(companiesToImport)` (side panel lines 776–815): the
`isDuplicate`-gated merge loop, returning the merged collection and the
`added`/`skipped` counters. -/
def importCompanies : List Company → List Company → List Company × Nat × Nat
  | [], cur => (cur, 0, 0)
  | c :: rest, cur =>
    if isDuplicateCompany (some c) cur then
      let r := importCompanies rest cur
      (r.1, r.2.1, r.2.2 + 1)
    else
      let r := importCompanies rest (cur ++ [c])
      (r.1, r.2.1 + 1, r.2.2)

/-! ## Spec-side duplicate predicates for the four-strategy description.

`specDupClaimed` follows the specification's words exactly as the claim
states them (four strategies, each an existential over the existing set,
first hit wins): (1) normalized URLs equal, (2) extracted slugs equal (both
URLs domain-scoped — slug extraction succeeds only on domain-scoped URLs),
(3) normalized names equal, (4) legal-suffix-stripped names equal with
cleaned length > 3.  `specDupAmended` is the same statement amended with the
guards the code actually applies to the two name strategies: the candidate's
normalized name must be non-empty, and the existing record's normalized name
must be non-empty and differ from the literal `'n/a'`. -/

/-- The claim's reading of strategy 1 for one existing record. -/
def specUrlClause (comp c : Company) : Bool :=
  match normalizeUrl comp.url, normalizeUrl c.url with
  | some a, some b => a == b
  | _, _ => false

/-- The claim's reading of strategy 2 for one existing record. -/
def specSlugClause (comp c : Company) : Bool :=
  match extractCompanySlug comp.url, extractCompanySlug c.url with
  | some a, some b => a == b
  | _, _ => false

/-- The claim's reading of strategy 3 for one existing record (no guards). -/
def specNameClauseClaimed (comp c : Company) : Bool :=
  match normalizeName comp.name, normalizeName c.name with
  | some a, some b => a == b
  | _, _ => false

/-- The claim's reading of strategy 4 for one existing record (no guards). -/
def specFuzzyClauseClaimed (comp c : Company) : Bool :=
  match normalizeName comp.name, normalizeName c.name with
  | some a, some b => cleanName b == cleanName a && decide (3 < (cleanName b).length)
  | _, _ => false

/-- Strategy 3 with the code's guards (amendment). -/
def specNameClause (comp c : Company) : Bool :=
  match normalizeName comp.name, normalizeName c.name with
  | some a, some b =>
    !a.isEmpty && !b.isEmpty && b != "n/a".toList && a == b
  | _, _ => false

/-- Strategy 4 with the code's guards (amendment). -/
def specFuzzyClause (comp c : Company) : Bool :=
  match normalizeName comp.name, normalizeName c.name with
  | some a, some b =>
    !a.isEmpty && !b.isEmpty && b != "n/a".toList &&
      (cleanName b == cleanName a && decide (3 < (cleanName b).length))
  | _, _ => false

/-- The duplicate test exactly as the claim words it. -/
def specDupClaimed (company : Option Company) (companies : List Company) : Bool :=
  match company with
  | none => false
  | some comp =>
    companies.any (specUrlClause comp) || companies.any (specSlugClause comp) ||
    companies.any (specNameClauseClaimed comp) || companies.any (specFuzzyClauseClaimed comp)

/-- The duplicate test as amended (name strategies guarded). -/
def specDupAmended (company : Option Company) (companies : List Company) : Bool :=
  match company with
  | none => false
  | some comp =>
    companies.any (specUrlClause comp) || companies.any (specSlugClause comp) ||
    companies.any (specNameClause comp) || companies.any (specFuzzyClause comp)

/-- Strings free of query, fragment and whitespace characters and stable
under lowercasing — the shape for which the algebraic URL identities are
stated. -/
def plainStr (s : Str) : Prop :=
  (∀ c ∈ s, c ≠ '?' ∧ c ≠ '#' ∧ c.isWhitespace = false) ∧ lowerL s = s

/-- Well-formed company slugs: no `'/'`, `'?'`, `'#'` or whitespace, and
already lowercase. -/
def slugOk (slug : Str) : Prop :=
  (∀ c ∈ slug, c ≠ '/' ∧ c ≠ '?' ∧ c ≠ '#' ∧ c.isWhitespace = false) ∧ lowerL slug = slug

/-- A record carries a usable (non-sentinel) identity when its URL
normalizes, or its normalized name is non-empty and not the literal
`'n/a'`.  Exactly these records are guaranteed to match themselves. -/
def hasIdentity (c : Company) : Prop :=
  (∃ u, normalizeUrl c.url = some u) ∨
  (∃ n, normalizeName c.name = some n ∧ n ≠ [] ∧ n ≠ "n/a".toList)

/-! ## Rate limiter (`src/utils/rate-limiter.js` lines 16–51; service worker
lines 79–105).  The two random samples of `getRandomDelay` are modelled as
rationals `r1 r2 ∈ [0,1]`; times are milliseconds as integers. -/

/-- `getRandomDelay()`: `Math.floor(base + jitter)` with
`base = r1 * (maxDelay - minDelay) + minDelay` and
`jitter = base * 0.1 * (2 * r2 - 1)`. -/
def getRandomDelay (minDelay maxDelay r1 r2 : ℚ) : Int :=
  let baseDelay := r1 * (maxDelay - minDelay) + minDelay
  let jitter := baseDelay * (1 / 10) * (2 * r2 - 1)
  ⌊baseDelay + jitter⌋

/-- The duration actually waited by `RateLimiter.wait()` (rate limiter lines
38–47), as a function of the sampled delay and of the time elapsed since the
last request: the remainder while still inside the delay window, and `0`
otherwise. -/
def rateLimiterWaitActual (delay timeSince : Int) : Int :=
  if timeSince < delay then delay - timeSince else 0

/-- The duration actually waited by the service worker's inlined
`waitWithRateLimit()` (service worker lines 93–98): the remainder while
inside the delay window, and `Math.min(delay, 2000)` otherwise. -/
def waitWithRateLimitActual (delay timeSince : Int) : Int :=
  if timeSince < delay then delay - timeSince else min delay 2000

/-! ## The scraping coordinator (service worker lines 7–717).

State, storage, the open detail tab and the stream of observable effects
(`notifyUI` messages, `chrome.tabs.create` / `chrome.tabs.remove`, the
`clickNextPage` message) are threaded explicitly.  The asynchronous
environment is an oracle: per processed page, the listing extraction result
and the pagination outcomes; per queue index, the detail-tab outcomes.
`ensureContentScriptInjected` never throws in the source (it returns a
boolean which `processCurrentPage` ignores), so content-script failure
surfaces only through a failed extraction response, which the oracle's
`none` covers.  Pure waits (`setTimeout`, rate-limit sleeps, navigation
polling) do not change the modelled state and are dropped. -/

/-- Entries of `this.state.errors`, abstracted to their identifying data. -/
inductive ErrTag
  | page (n : Int)
  | company (url : Str)
  | pagination (n : Int)
deriving DecidableEq, Repr

/-- Observable effects, in emission order: `notifyUI` messages (tagged with
their identifying payload), tab creation/removal, and the `clickNextPage`
message sent to the listing tab. -/
inductive Event
  | scrapingStarted
  | statusProcessingPage (page : Int)
  | statusNoCompanies (page : Int)
  | companiesFound (count : Nat) (page : Int)
  | statusPageSummary (page : Int)
  | statusAllDup (page : Int)
  | statusSkippedDup (url : Str)
  | statusScraping (n : Nat)
  | tabCreate (url : Str)
  | tabRemove
  | companyScraped (name : Option Str) (processed : Nat)
  | clickNextPage
  | statusError
  | scrapingComplete
  | scrapingStopped
  | scrapingPaused
  | scrapingResumed
deriving DecidableEq, Repr

/-- `this.state` of the `ScraperCoordinator`. -/
structure SWState where
  isRunning : Bool
  isPaused : Bool
  currentPage : Int
  startPage : Int
  maxPages : Int
  processedCompanies : Nat
  totalCompaniesFound : Nat
  companyQueue : List Str
  currentCompanyIndex : Nat
  errors : List ErrTag
deriving DecidableEq, Repr

/-- The whole system: coordinator state, the persisted record collection,
whether a detail tab is open (`activeTabId !== null`), and the trace of
observable effects so far. -/
structure Sys where
  st : SWState
  storage : List Company
  activeTab : Bool
  trace : List Event
deriving DecidableEq, Repr

/-- Environment of one detail-page visit: does `chrome.tabs.create` succeed,
does the tab load in time, and what does `extractCompanyData` answer
(`none` = thrown error or unsuccessful response). -/
structure ItemEnv where
  openOk : Bool
  loadOk : Bool
  extract : Option Company
deriving Repr

/-- Environment of one listing page: the `extractCompanyURLs` response
(`none` = failure; otherwise the `(url, name)` items found), whether the
search tab is still valid, whether the next-page click succeeds, and whether
the tab is still on a search-results URL afterwards. -/
structure PageEnv where
  extractUrls : Option (List (Str × Str))
  tabValid : Bool
  clickOk : Bool
  stillOnSearch : Bool
deriving Repr

/-- The full oracle: `page k` drives the `k`-th processed page, `item k i`
the detail visit of queue index `i` on that page. -/
structure Env where
  page : Nat → PageEnv
  item : Nat → Nat → ItemEnv

/-- `aboutUrl` computation of `processCompany` (service worker lines
389–393): append `/about/` unless already present, dropping one trailing
slash first. -/
def toAboutUrl (url : Str) : Str :=
  if containsSeg "/about/".toList url then url
  else
    (match url.getLast? with
     | some '/' => url.dropLast
     | _ => url) ++ "/about/".toList

/-- `processCompany(companyUrl)` (service worker lines 356–456). -/
def processCompany (ie : ItemEnv) (url : Str) (σ : Sys) : Sys :=
  if isDuplicateCompany (some ⟨some url, some []⟩) σ.storage then
    { σ with
      st := { σ.st with processedCompanies := σ.st.processedCompanies + 1 },
      trace := σ.trace ++ [Event.statusSkippedDup url] }
  else
    let σ1 := { σ with trace := σ.trace ++ [Event.statusScraping (σ.st.processedCompanies + 1)] }
    if ie.openOk = false then
      { σ1 with st := { σ1.st with errors := σ1.st.errors ++ [ErrTag.company url] } }
    else
      let σ2 :=
        { σ1 with
          activeTab := true
          trace := σ1.trace ++ [Event.tabCreate (toAboutUrl url)] }
      if ie.loadOk = false then
        { σ2 with
          st := { σ2.st with errors := σ2.st.errors ++ [ErrTag.company url] },
          activeTab := false, trace := σ2.trace ++ [Event.tabRemove] }
      else
        match ie.extract with
        | none =>
          { σ2 with
            st := { σ2.st with errors := σ2.st.errors ++ [ErrTag.company url] },
            activeTab := false, trace := σ2.trace ++ [Event.tabRemove] }
        | some data =>
          let r := saveCompanyData data σ2.storage
          let σ3 := { σ2 with storage := r.2 }
          let σ4 :=
            if r.1 then
              { σ3 with
                st := { σ3.st with processedCompanies := σ3.st.processedCompanies + 1 },
                trace := σ3.trace ++
                  [Event.companyScraped data.name (σ3.st.processedCompanies + 1)] }
            else
              { σ3 with st := { σ3.st with processedCompanies := σ3.st.processedCompanies + 1 } }
          { σ4 with activeTab := false, trace := σ4.trace ++ [Event.tabRemove] }

/-- The `for` loop of `processCompanyQueue` (service worker lines 339–350),
iterating over the remaining queue suffix with its running index.  The pause
and stop flags are checked at the top of every iteration. -/
def processCompanyQueueAux (ienv : Nat → ItemEnv) : List Str → Nat → Sys → Sys
  | [], _, σ => σ
  | url :: rest, i, σ =>
    if !σ.st.isRunning || σ.st.isPaused then σ
    else
      let σ1 := { σ with st := { σ.st with currentCompanyIndex := i } }
      let σ2 := processCompany (ienv i) url σ1
      processCompanyQueueAux ienv rest (i + 1) σ2

/-- `processCompanyQueue()` — note the loop always starts at index `0`. -/
def processCompanyQueue (ienv : Nat → ItemEnv) (σ : Sys) : Sys :=
  processCompanyQueueAux ienv σ.st.companyQueue 0 σ

/-- `completeScraping()` (service worker lines 615–656). -/
def completeScraping (σ : Sys) : Sys :=
  let σ1 := { σ with st := { σ.st with isRunning := false, isPaused := false } }
  let σ2 :=
    if σ1.activeTab then
      { σ1 with activeTab := false, trace := σ1.trace ++ [Event.tabRemove] }
    else σ1
  { σ2 with trace := σ2.trace ++ [Event.scrapingComplete] }

/-- `stopScraping()` (service worker lines 662–694). -/
def stopScraping (σ : Sys) : Sys :=
  let σ1 := { σ with st := { σ.st with isRunning := false, isPaused := false } }
  let σ2 :=
    if σ1.activeTab then
      { σ1 with activeTab := false, trace := σ1.trace ++ [Event.tabRemove] }
    else σ1
  { σ2 with trace := σ2.trace ++ [Event.scrapingStopped] }

/-- `pauseScraping()` (service worker lines 699–703). -/
def pauseScraping (σ : Sys) : Sys :=
  { σ with st := { σ.st with isPaused := true }, trace := σ.trace ++ [Event.scrapingPaused] }

/-- `resumeScraping()` (service worker lines 708–717): clear the paused
flag, notify, and — when still running — call `processCompanyQueue()`,
whose loop restarts at queue index `0`. -/
def resumeScraping (ienv : Nat → ItemEnv) (σ : Sys) : Sys :=
  let σ1 :=
    { σ with
      st := { σ.st with isPaused := false }
      trace := σ.trace ++ [Event.scrapingResumed] }
  if σ1.st.isRunning then processCompanyQueue ienv σ1 else σ1

/-- The non-recursive part of `goToNextPage()` (service worker lines
462–565): returns the updated system and whether processing should continue
on the next page.  `checkPagination`'s answer is consulted but ignored (the
click is attempted regardless), so it is not part of the oracle. -/
def goToNextPageStep (pe : PageEnv) (σ : Sys) : Sys × Bool :=
  if pe.tabValid = false then
    (completeScraping
      { σ with
        st := { σ.st with errors := σ.st.errors ++ [ErrTag.pagination (σ.st.currentPage + 1)] },
        trace := σ.trace ++ [Event.statusError] }, false)
  else
    let σ1 := { σ with trace := σ.trace ++ [Event.clickNextPage] }
    if pe.clickOk = false then
      if σ1.st.companyQueue.length = 0 ∧ σ1.st.processedCompanies = 0 then
        (completeScraping
          { σ1 with
            st := { σ1.st with
              errors := σ1.st.errors ++ [ErrTag.pagination (σ1.st.currentPage + 1)] },
            trace := σ1.trace ++ [Event.statusError] }, false)
      else (completeScraping σ1, false)
    else
      let σ2 := { σ1 with st := { σ1.st with currentPage := σ1.st.currentPage + 1 } }
      if pe.stillOnSearch = false then
        (completeScraping
          { σ2 with
            st := { σ2.st with
              errors := σ2.st.errors ++ [ErrTag.pagination (σ2.st.currentPage + 1)] },
            trace := σ2.trace ++ [Event.statusError] }, false)
      else (σ2, true)

/-- `processCurrentPage()` (service worker lines 180–334) together with the
recursive drive through `goToNextPage()`.  `fuel` bounds the recursion (the
page-budget guard makes any `fuel ≥ maxPages` sufficient); `k` is the
ordinal of the processed page, used only to index the oracle. -/
def processCurrentPage (env : Env) : Nat → Nat → Sys → Sys
  | _, 0, σ => σ
  | k, fuel + 1, σ =>
    if !σ.st.isRunning || σ.st.isPaused then σ
    else
      let σ0 := { σ with trace := σ.trace ++ [Event.statusProcessingPage σ.st.currentPage] }
      match (env.page k).extractUrls with
      | none =>
        completeScraping
          { σ0 with
            st := { σ0.st with errors := σ0.st.errors ++ [ErrTag.page σ0.st.currentPage] },
            trace := σ0.trace ++ [Event.statusError] }
      | some companiesData =>
        let σ1 :=
          if companiesData.length = 0 then
            { σ0 with
              st := { σ0.st with companyQueue := [] }
              trace := σ0.trace ++ [Event.statusNoCompanies σ0.st.currentPage] }
          else
            let filtered := companiesData.filter
              (fun it => !(isDuplicateCompany (some ⟨some it.1, some it.2⟩) σ0.storage))
            let σa :=
              { σ0 with
                st := { σ0.st with
                  companyQueue := filtered.map Prod.fst,
                  totalCompaniesFound := σ0.st.totalCompaniesFound + companiesData.length,
                  currentCompanyIndex := 0 },
                trace := σ0.trace ++ [Event.companiesFound companiesData.length σ0.st.currentPage] ++
                  (if companiesData.length - filtered.length ≠ 0 then
                    [Event.statusPageSummary σ0.st.currentPage]
                  else []) }
            if filtered.length ≠ 0 then processCompanyQueue (env.item k) σa
            else { σa with trace := σa.trace ++ [Event.statusAllDup σa.st.currentPage] }
        if σ1.st.isRunning = true ∧ σ1.st.isPaused = false ∧
            σ1.st.currentPage - σ1.st.startPage + 1 < σ1.st.maxPages then
          match goToNextPageStep (env.page k) σ1 with
          | (σ2, true) => processCurrentPage env (k + 1) fuel σ2
          | (σ2, false) => σ2
        else completeScraping σ1

/-- `goToNextPage()` as a named entry point (the drive call inside
`processCurrentPage` is exactly this). -/
def goToNextPage (env : Env) (k fuel : Nat) (σ : Sys) : Sys :=
  match goToNextPageStep (env.page k) σ with
  | (σ2, true) => processCurrentPage env (k + 1) fuel σ2
  | (σ2, false) => σ2

/-- `startScraping(searchTabId, maxPages)` (service worker lines 111–175).
`startPage` stands for the detected starting page (URL inspection /
content detection / default 1 — the detection itself is environmental). -/
def startScraping (env : Env) (startPage maxPages : Int) (fuel : Nat)
    (storage : List Company) : Sys :=
  let st : SWState :=
    { isRunning := true, isPaused := false,
      currentPage := startPage, startPage := startPage, maxPages := maxPages,
      processedCompanies := 0, totalCompaniesFound := 0,
      companyQueue := [], currentCompanyIndex := 0, errors := [] }
  processCurrentPage env 0 fuel
    { st := st, storage := storage, activeTab := false, trace := [Event.scrapingStarted] }

/-! ### Trace observation helpers. -/

/-- Is this the per-page `Processing page N...` status? -/
def isProcessingPageEvent : Event → Bool
  | .statusProcessingPage _ => true
  | _ => false

/-- Is this the `clickNextPage` message (a page-advance attempt)? -/
def isClickEvent : Event → Bool
  | .clickNextPage => true
  | _ => false

/-- Is this a detail-tab creation? -/
def isTabCreateEvent : Event → Bool
  | .tabCreate _ => true
  | _ => false

/-- Is this a detail-tab removal? -/
def isTabRemoveEvent : Event → Bool
  | .tabRemove => true
  | _ => false

/-- Events marking that a queue item started being handled (the skip status
or the `Scraping company N...` status — exactly one per handled item). -/
def isItemMarkerEvent : Event → Bool
  | .statusSkippedDup _ => true
  | .statusScraping _ => true
  | _ => false

/-- Does the environment make this queue item fail (given that it is not
skipped as a duplicate)? -/
def itemFails (ie : ItemEnv) (url : Str) (storage : List Company) : Bool :=
  !(isDuplicateCompany (some ⟨some url, some []⟩) storage) &&
    (!ie.openOk || !ie.loadOk || ie.extract.isNone)

/-! ### Concrete scenario data (testable-property scenarios of the spec). -/

/-- Listing item A — already stored, same slug `acme`. -/
def c7urlA : Str := "https://www.linkedin.com/company/acme?trk=x".toList

/-- Listing item B — new. -/
def c7urlB : Str := "https://linkedin.com/company/beta".toList

/-- Listing item C — already stored, same slug `ccorp`. -/
def c7urlC : Str := "linkedin.com/company/ccorp".toList

/-- Stored records matching A and C by slug. -/
def c7Storage : List Company :=
  [⟨some ("http://linkedin.com/company/acme/about/".toList), some ("Acme".toList)⟩,
   ⟨some ("https://www.linkedin.com/company/ccorp/".toList), some ("CCorp".toList)⟩]

/-- The record extracted from B's detail page. -/
def c7DataB : Company :=
  ⟨some ("https://www.linkedin.com/company/beta/about/".toList), some ("Beta".toList)⟩

/-- Oracle for the A/B/C scenario: the listing yields the three items and
every detail-page step succeeds. -/
def c7Env : Env :=
  { page := fun _ =>
      { extractUrls := some
          [(c7urlA, "Acme Inc".toList), (c7urlB, "Beta".toList), (c7urlC, "C".toList)],
        tabValid := true, clickOk := true, stillOnSearch := true },
    item := fun _ _ => { openOk := true, loadOk := true, extract := some c7DataB } }

/-- The A/B/C run: `maxPages = 1`, starting from page 1. -/
def c7Run : Sys := startScraping c7Env 1 1 5 c7Storage

/-- URL of the item processed and saved before the pause. -/
def c4urlA : Str := "linkedin.com/company/acme".toList

/-- URL of the item not yet processed when paused. -/
def c4urlB : Str := "linkedin.com/company/beta".toList

/-- A run paused after item 0 of the queue `[A, B]` was processed and saved:
cursor at 0, one item processed, A already in the store. -/
def c4PausedState : Sys :=
  { st := { isRunning := true, isPaused := true, currentPage := 1, startPage := 1,
            maxPages := 1, processedCompanies := 1, totalCompaniesFound := 2,
            companyQueue := [c4urlA, c4urlB], currentCompanyIndex := 0, errors := [] },
    storage := [⟨some c4urlA, some ("Acme".toList)⟩],
    activeTab := false, trace := [] }

/-- Item oracle for the resumed run: every detail visit succeeds and yields
B's record. -/
def c4ItemEnv : Nat → ItemEnv :=
  fun _ => { openOk := true, loadOk := true, extract := some ⟨some c4urlB, some ("Beta".toList)⟩ }

/-- The system after the user resumes. -/
def c4Resumed : Sys := resumeScraping c4ItemEnv c4PausedState

/-- The drive oracle used for the exact page-budget run: every listing page
extracts successfully (with no items) and pagination always succeeds —
further pages are always available. -/
def alwaysAdvanceEnv : Env :=
  { page := fun _ =>
      { extractUrls := some [], tabValid := true, clickOk := true, stillOnSearch := true },
    item := fun _ _ => { openOk := true, loadOk := true, extract := none } }


/-- Queue-scenario data for the error-isolation property: a single-item
queue whose detail tab fails to open. -/
def c8url : Str := "https://www.linkedin.com/company/zed".toList

def c8IE : ItemEnv :=
  { openOk := false
    loadOk := true
    extract := none }

def c8σ : Sys :=
  { st :=
      { isRunning := true
        isPaused := false
        currentPage := 1
        startPage := 1
        maxPages := 1
        processedCompanies := 0
        totalCompaniesFound := 0
        companyQueue := []
        currentCompanyIndex := 0
        errors := [] }
    storage := []
    activeTab := false
    trace := [] }

/-- The page-budget invariant of `processCurrentPage`: from any within-budget
state the remaining run stays within the remaining budget (page statuses,
advance clicks, configuration frame and the page-counter bound). -/
def PCPBound (env : Env) (fuel : Nat) : Prop :=
  ∀ (k : Nat) (σ : Sys),
    σ.st.currentPage - σ.st.startPage + 1 ≤ σ.st.maxPages →
    σ.activeTab = false →
    ∃ Δ, (processCurrentPage env k fuel σ).trace = σ.trace ++ Δ ∧
      Δ.countP isProcessingPageEvent ≤
        (σ.st.maxPages - (σ.st.currentPage - σ.st.startPage)).toNat ∧
      Δ.countP isClickEvent ≤
        (σ.st.maxPages - (σ.st.currentPage - σ.st.startPage) - 1).toNat ∧
      (processCurrentPage env k fuel σ).st.startPage = σ.st.startPage ∧
      (processCurrentPage env k fuel σ).st.maxPages = σ.st.maxPages ∧
      (processCurrentPage env k fuel σ).st.currentPage - σ.st.startPage + 1 ≤ σ.st.maxPages

/-! # Theorems -/

/-! ## Generic helpers -/

theorem bool_eq_of_iff {a b : Bool} (h : a = true ↔ b = true) : a = b := by
  cases a <;> cases b <;> simp_all

theorem slug_none_of_url_none {u : Option Str} (h : normalizeUrl u = none) :
    extractCompanySlug u = none := by
  unfold extractCompanySlug
  rw [h]

/-! ## The duplicate matcher: pointwise characterizations of each strategy -/

theorem specUrlClause_true {comp c : Company} :
    specUrlClause comp c = true ↔
      ∃ u, normalizeUrl comp.url = some u ∧ normalizeUrl c.url = some u := by
  unfold specUrlClause
  rcases h1 : normalizeUrl comp.url with _ | a <;> rcases h2 : normalizeUrl c.url with _ | b <;>
    simp [beq_iff_eq]
  exact eq_comm

theorem specSlugClause_true {comp c : Company} :
    specSlugClause comp c = true ↔
      ∃ s, extractCompanySlug comp.url = some s ∧ extractCompanySlug c.url = some s := by
  unfold specSlugClause
  rcases h1 : extractCompanySlug comp.url with _ | a <;>
    rcases h2 : extractCompanySlug c.url with _ | b <;> simp [beq_iff_eq]
  exact eq_comm

theorem specNameClause_true {comp c : Company} :
    specNameClause comp c = true ↔
      ∃ n, normalizeName comp.name = some n ∧ normalizeName c.name = some n ∧
        n ≠ [] ∧ n ≠ "n/a".toList := by
  unfold specNameClause
  rcases h1 : normalizeName comp.name with _ | a <;>
    rcases h2 : normalizeName c.name with _ | b <;>
    simp [beq_iff_eq, bne_iff_ne, List.isEmpty_iff]
  constructor
  · rintro ⟨⟨⟨ha, _⟩, hna⟩, rfl⟩
    exact ⟨rfl, ha, hna⟩
  · rintro ⟨rfl, ha, hna⟩
    exact ⟨⟨⟨ha, ha⟩, hna⟩, rfl⟩

theorem specFuzzyClause_true {comp c : Company} :
    specFuzzyClause comp c = true ↔
      ∃ a b, normalizeName comp.name = some a ∧ normalizeName c.name = some b ∧
        a ≠ [] ∧ b ≠ [] ∧ b ≠ "n/a".toList ∧
        cleanName b = cleanName a ∧ 3 < (cleanName b).length := by
  unfold specFuzzyClause
  rcases h1 : normalizeName comp.name with _ | a <;>
    rcases h2 : normalizeName c.name with _ | b <;>
    simp [beq_iff_eq, bne_iff_ne, List.isEmpty_iff]
  tauto

theorem strat1Pred_true {cu : Str} {cslug : Option Str} {c : Company} :
    strat1Pred cu cslug c = true ↔
      (normalizeUrl c.url = some cu ∨
        ∃ eu s, normalizeUrl c.url = some eu ∧ cslug = some s ∧
          containsLit eu = true ∧ extractCompanySlug c.url = some s) := by
  unfold strat1Pred
  rcases h1 : normalizeUrl c.url with _ | eu
  · simp
  · rcases h2 : cslug with _ | s
    · simp [beq_iff_eq]
    · rcases h3 : extractCompanySlug c.url with _ | es <;>
        simp [beq_iff_eq, Bool.or_eq_true, Bool.and_eq_true]

theorem strat3Pred_true {cn : Str} {c : Company} :
    strat3Pred cn c = true ↔
      ∃ en, normalizeName c.name = some en ∧ en ≠ [] ∧ en ≠ "n/a".toList ∧
        (en = cn ∨ (cleanName en = cleanName cn ∧ 3 < (cleanName en).length)) := by
  unfold strat3Pred
  rcases h1 : normalizeName c.name with _ | en
  · simp
  · by_cases he : en = []
    · simp [he]
    · by_cases hna : en = "n/a".toList
      · simp [he, hna]
      · simp [he, hna, beq_iff_eq]

/-- The unfolded shape of `isDuplicateCompany` on a non-null candidate. -/
theorem isDuplicateCompany_some (comp : Company) (l : List Company) :
    isDuplicateCompany (some comp) l =
      ((match normalizeUrl comp.url with
        | none => false
        | some cu => l.any (strat1Pred cu (extractCompanySlug comp.url))) ||
       (match extractCompanySlug comp.url with
        | none => false
        | some s =>
          l.any (fun c =>
            match extractCompanySlug c.url with
            | none => false
            | some es => es == s)) ||
       (match normalizeName comp.name with
        | none => false
        | some cn => if cn = [] then false else l.any (strat3Pred cn))) := rfl

theorem match_slug_eq_true {c : Company} {s : Str} :
    (match extractCompanySlug c.url with
     | none => false
     | some es => es == s) = true ↔ extractCompanySlug c.url = some s := by
  rcases h : extractCompanySlug c.url with _ | es <;> simp [beq_iff_eq]

theorem nameSideIff (l : List Company) (cn na : Str) (hcn : ¬cn = []) :
    (∃ x ∈ l,
      ∃ en, normalizeName x.name = some en ∧ ¬en = [] ∧ ¬en = na ∧
        (en = cn ∨ cleanName en = cleanName cn ∧ 3 < (cleanName en).length)) ↔
    ((∃ x ∈ l, normalizeName x.name = some cn ∧ ¬cn = na) ∨
      ∃ x ∈ l,
        ∃ b, normalizeName x.name = some b ∧ ¬b = [] ∧ ¬b = na ∧
          cleanName b = cleanName cn ∧ 3 < (cleanName b).length) := by
  constructor
  · rintro ⟨x, hx, en, hen, h1, h2, (rfl | ⟨hc, hl⟩)⟩
    · exact Or.inl ⟨x, hx, hen, h2⟩
    · exact Or.inr ⟨x, hx, en, hen, h1, h2, hc, hl⟩
  · rintro (⟨x, hx, hen, h2⟩ | ⟨x, hx, b, hb, h1, h2, hc, hl⟩)
    · exact ⟨x, hx, cn, hen, hcn, h2, Or.inl rfl⟩
    · exact ⟨x, hx, b, hb, h1, h2, Or.inr ⟨hc, hl⟩⟩

theorem urlSideIff (l : List Company) (cu s : Str) :
    ((∃ x ∈ l, (normalizeUrl x.url = some cu ∨
        ∃ eu, normalizeUrl x.url = some eu ∧ containsLit eu = true ∧
          extractCompanySlug x.url = some s)) ∨
      ∃ x ∈ l, extractCompanySlug x.url = some s) ↔
    ((∃ x ∈ l, normalizeUrl x.url = some cu) ∨ ∃ x ∈ l, extractCompanySlug x.url = some s) := by
  constructor
  · rintro (⟨x, hx, (h | ⟨eu, heu, hc, hslug⟩)⟩ | ⟨x, hx, h⟩)
    · exact Or.inl ⟨x, hx, h⟩
    · exact Or.inr ⟨x, hx, hslug⟩
    · exact Or.inr ⟨x, hx, h⟩
  · rintro (⟨x, hx, h⟩ | ⟨x, hx, h⟩)
    · exact Or.inl ⟨x, hx, Or.inl h⟩
    · exact Or.inr ⟨x, hx, h⟩

/-- C2 (amended): `isDuplicateCompany` returns true exactly when one of the
four described strategies — normalized-URL equality, slug equality,
normalized-name equality, legal-suffix-stripped fuzzy name equality with
cleaned length > 3 — matches some existing record, where (the amendment) the
two name strategies additionally require the candidate's normalized name to
be non-empty and the existing record's normalized name to be non-empty and
different from the literal `'n/a'`. -/
theorem c2_isDuplicate_four_strategies_amended (oc : Option Company) (l : List Company) :
    isDuplicateCompany oc l = specDupAmended oc l := by
  cases oc with
  | none => rfl
  | some comp =>
    rw [isDuplicateCompany_some]
    unfold specDupAmended
    apply bool_eq_of_iff
    simp only [Bool.or_eq_true, List.any_eq_true, specUrlClause_true, specSlugClause_true,
      specNameClause_true, specFuzzyClause_true]
    rcases hu : normalizeUrl comp.url with _ | cu
    · have hsl : extractCompanySlug comp.url = none := slug_none_of_url_none hu
      rw [hsl]
      rcases hn : normalizeName comp.name with _ | cn
      · simp
      · by_cases hcn : cn = []
        · subst hcn
          simp
        · simp only [List.any_eq_true, strat3Pred_true, if_neg hcn]
          simp [hcn]
          exact nameSideIff l cn _ hcn
    · rcases hs : extractCompanySlug comp.url with _ | s
      · rcases hn : normalizeName comp.name with _ | cn
        · simp [strat1Pred_true, match_slug_eq_true]
        · by_cases hcn : cn = []
          · subst hcn
            simp [strat1Pred_true, match_slug_eq_true]
          · simp only [List.any_eq_true, strat3Pred_true, if_neg hcn]
            simp [hcn, strat1Pred_true, match_slug_eq_true]
            rw [nameSideIff l cn _ hcn]
            exact or_assoc.symm
      · rcases hn : normalizeName comp.name with _ | cn
        · simp [strat1Pred_true, match_slug_eq_true]
          exact urlSideIff l cu s
        · by_cases hcn : cn = []
          · subst hcn
            simp [strat1Pred_true, match_slug_eq_true]
            exact urlSideIff l cu s
          · simp only [List.any_eq_true, strat3Pred_true, if_neg hcn]
            simp [hcn, strat1Pred_true, match_slug_eq_true]
            rw [nameSideIff l cn _ hcn, urlSideIff l cu s]
            exact or_assoc.symm

/-- C2 (counterexample to the claim as stated): for the candidate with no
URL and the name `'n/a'` against a store holding an identical record, the
claim's strategy (3) matches (both names normalize to the equal, non-null
string `'n/a'`), yet `isDuplicateCompany` returns `false`, because the code
additionally rejects existing records whose normalized name is the literal
`'n/a'`.  So the stated "if and only if" fails right-to-left. -/
theorem c2_na_name_counterexample :
    specDupClaimed (some ⟨none, some ("n/a".toList)⟩) [⟨none, some ("n/a".toList)⟩] = true ∧
    isDuplicateCompany (some ⟨none, some ("n/a".toList)⟩) [⟨none, some ("n/a".toList)⟩] = false := by
  decide

/-- C1 (amended): a record carrying a usable identity — a URL that
normalizes, or a normalized name that is non-empty and not the literal
`'n/a'` — always matches itself once stored: any later `isDuplicateCompany`
check of that record against a collection containing it returns `true`, so
both gated insertions (`saveCompanyData` and the import loop) refuse it. -/
theorem c1_store_never_accumulates_identified_duplicates
    (c : Company) (l : List Company) (hmem : c ∈ l) (hid : hasIdentity c) :
    isDuplicateCompany (some c) l = true ∧
    saveCompanyData c l = (false, l) ∧
    importCompanies [c] l = (l, 0, 1) := by
  have hdup : isDuplicateCompany (some c) l = true := by
    rw [isDuplicateCompany_some]
    rcases hid with ⟨u, hu⟩ | ⟨n, hn, hne, hna⟩
    · have h1 : l.any (strat1Pred u (extractCompanySlug c.url)) = true :=
        List.any_eq_true.mpr ⟨c, hmem, strat1Pred_true.mpr (Or.inl hu)⟩
      simp [hu, h1]
    · have h3 : l.any (strat3Pred n) = true :=
        List.any_eq_true.mpr ⟨c, hmem, strat3Pred_true.mpr ⟨n, hn, hne, hna, Or.inl rfl⟩⟩
      simp [hn, hne, h3]
  refine ⟨hdup, ?_, ?_⟩
  · simp [saveCompanyData, hdup]
  · simp [importCompanies, hdup]

/-- C1 (counterexample to the claim as stated): the all-sentinel record
(`url = 'N/A'`, `name = 'N/A'`) is appended by an `isDuplicate`-gated
insertion, yet a later `isDuplicate` check of the very same record against
the collection returns `false`, so a second gated insertion appends it
again — the claim's "any later isDuplicate check … returns true" fails. -/
theorem c1_sentinel_counterexample :
    saveCompanyData ⟨some ("N/A".toList), some ("N/A".toList)⟩ [] =
      (true, [⟨some ("N/A".toList), some ("N/A".toList)⟩]) ∧
    isDuplicateCompany (some ⟨some ("N/A".toList), some ("N/A".toList)⟩)
      [⟨some ("N/A".toList), some ("N/A".toList)⟩] = false ∧
    saveCompanyData ⟨some ("N/A".toList), some ("N/A".toList)⟩
      [⟨some ("N/A".toList), some ("N/A".toList)⟩] =
      (true, [⟨some ("N/A".toList), some ("N/A".toList)⟩,
              ⟨some ("N/A".toList), some ("N/A".toList)⟩]) := by
  decide

/-- C1 witness: the amended theorem applied at a concrete stored record. -/
theorem c1_witness :
    isDuplicateCompany (some ⟨some ("a.com".toList), none⟩)
      [⟨some ("a.com".toList), none⟩] = true ∧
    saveCompanyData ⟨some ("a.com".toList), none⟩ [⟨some ("a.com".toList), none⟩] =
      (false, [⟨some ("a.com".toList), none⟩]) :=
  ⟨(c1_store_never_accumulates_identified_duplicates _ _ (by decide)
      (Or.inl ⟨"a.com".toList, by decide⟩)).1,
   (c1_store_never_accumulates_identified_duplicates _ _ (by decide)
      (Or.inl ⟨"a.com".toList, by decide⟩)).2.1⟩

/-- C9: `saveCompanyData` refuses a duplicate candidate, returning `false`
and leaving the collection unchanged; otherwise it appends exactly that one
record at the end and returns `true`.  In both cases the prior collection is
a prefix of the result, so existing records are never modified. -/
theorem c9_saveCompanyData_gate (c : Company) (l : List Company) :
    (isDuplicateCompany (some c) l = true → saveCompanyData c l = (false, l)) ∧
    (isDuplicateCompany (some c) l = false → saveCompanyData c l = (true, l ++ [c])) ∧
    ∃ t, (saveCompanyData c l).2 = l ++ t := by
  by_cases h : isDuplicateCompany (some c) l = true
  · exact ⟨fun _ => by simp [saveCompanyData, h],
      fun hc => absurd h (by simp [hc]),
      ⟨[], by simp [saveCompanyData, h]⟩⟩
  · have hf : isDuplicateCompany (some c) l = false := by
      simpa using h
    exact ⟨fun ht => absurd ht h,
      fun _ => by simp [saveCompanyData, hf],
      ⟨[c], by simp [saveCompanyData, hf]⟩⟩

/-- C9 witness: a fresh record is appended and `true` returned. -/
theorem c9_witness :
    saveCompanyData ⟨some ("a.com".toList), some ("Acme".toList)⟩ [] =
      (true, [⟨some ("a.com".toList), some ("Acme".toList)⟩]) :=
  (c9_saveCompanyData_gate _ _).2.1 (by decide)

/-- C10: a candidate whose `url` and `name` both fail to normalize matches
nothing — `isDuplicateCompany` returns `false` against every collection, so
`saveCompanyData` always appends such a record; and a `null` candidate also
yields `false`. -/
theorem c10_sentinel_never_duplicate :
    (∀ (c : Company) (l : List Company), normalizeUrl c.url = none →
      normalizeName c.name = none →
      isDuplicateCompany (some c) l = false ∧ saveCompanyData c l = (true, l ++ [c])) ∧
    (∀ l : List Company, isDuplicateCompany none l = false) := by
  constructor
  · intro c l hu hn
    have hs := slug_none_of_url_none hu
    have hd : isDuplicateCompany (some c) l = false := by
      rw [isDuplicateCompany_some, hu, hs, hn]
      rfl
    exact ⟨hd, by simp [saveCompanyData, hd]⟩
  · intro l
    rfl

/-- C10 witness: the all-sentinel candidate is not a duplicate of a
non-trivial store. -/
theorem c10_witness :
    isDuplicateCompany (some ⟨some ("N/A".toList), none⟩)
      [⟨some ("x.com".toList), some ("Acme".toList)⟩] = false :=
  (c10_sentinel_never_duplicate.1 ⟨some ("N/A".toList), none⟩
    [⟨some ("x.com".toList), some ("Acme".toList)⟩] (by decide) rfl).1

/-! ## The rate limiter -/

/-- With the default configuration (5000–10000 ms) the sampled delay is at
least 4500 ms: the base lies in `[5000, 10000]` and the jitter shrinks it by
at most 10 %. -/
theorem getRandomDelay_ge (r1 r2 : ℚ) (h1 : 0 ≤ r1) (h2 : r1 ≤ 1)
    (h3 : 0 ≤ r2) (h4 : r2 ≤ 1) :
    4500 ≤ getRandomDelay 5000 10000 r1 r2 := by
  unfold getRandomDelay
  have hq : (4500 : ℚ) ≤ (r1 * (10000 - 5000) + 5000) +
      (r1 * (10000 - 5000) + 5000) * (1 / 10) * (2 * r2 - 1) := by nlinarith
  exact Int.le_floor.mpr (by push_cast; linarith)

/-- The sample `r1 = 0`, `r2 = 1/2` yields exactly the minimum base delay. -/
theorem getRandomDelay_eval : getRandomDelay 5000 10000 0 (1 / 2) = 5000 := by
  unfold getRandomDelay
  norm_num

/-- C5 (amended): when less time has elapsed than the freshly sampled delay,
both `RateLimiter.wait` and the service worker's `waitWithRateLimit` wait
exactly the remainder (which is positive); after an idle period at least as
long as the sampled delay, `waitWithRateLimit` waits `min(delay, 2000)`,
which equals the non-zero floor of 2000 ms because the sampled delay is at
least 4500 ms — but `RateLimiter.wait` waits `0`. -/
theorem c5_rate_limit_wait_amended (r1 r2 : ℚ) (elapsed d : Int)
    (h1 : 0 ≤ r1) (h2 : r1 ≤ 1) (h3 : 0 ≤ r2) (h4 : r2 ≤ 1)
    (hd : d = getRandomDelay 5000 10000 r1 r2) :
    (elapsed < d → rateLimiterWaitActual d elapsed = d - elapsed ∧
      waitWithRateLimitActual d elapsed = d - elapsed ∧
      0 < rateLimiterWaitActual d elapsed) ∧
    (d ≤ elapsed → waitWithRateLimitActual d elapsed = 2000 ∧
      rateLimiterWaitActual d elapsed = 0) := by
  have hge : 4500 ≤ d := hd ▸ getRandomDelay_ge r1 r2 h1 h2 h3 h4
  constructor
  · intro hlt
    refine ⟨?_, ?_, ?_⟩ <;> simp [rateLimiterWaitActual, waitWithRateLimitActual, hlt] <;> omega
  · intro hge2
    have hnlt : ¬ elapsed < d := by omega
    refine ⟨?_, ?_⟩ <;> simp [rateLimiterWaitActual, waitWithRateLimitActual, hnlt]
    omega

/-- C5 (counterexample to the claim as stated): after an idle period of
6000 ms with a sampled delay of 5000 ms, `RateLimiter.wait` (the rate
limiter module's own `wait`, one of the claim's two cited implementations)
waits `0` ms — not the claimed floor of at least 2000 ms, and in particular
the actual wait is zero. -/
theorem c5_zero_wait_counterexample :
    getRandomDelay 5000 10000 0 (1 / 2) = 5000 ∧
    getRandomDelay 5000 10000 0 (1 / 2) ≤ 6000 ∧
    rateLimiterWaitActual (getRandomDelay 5000 10000 0 (1 / 2)) 6000 = 0 ∧
    rateLimiterWaitActual (getRandomDelay 5000 10000 0 (1 / 2)) 6000 < 2000 := by
  have h := getRandomDelay_eval
  refine ⟨h, by rw [h]; norm_num, by rw [h]; rfl, by rw [h]; norm_num [rateLimiterWaitActual]⟩

/-- C5 witness: the amended theorem applied at the concrete sample
`(r1, r2) = (0, 1/2)` (delay 5000), once inside the delay window and once
after an idle period. -/
theorem c5_witness :
    (rateLimiterWaitActual 5000 3000 = 2000 ∧
      waitWithRateLimitActual 5000 3000 = 2000 ∧ 0 < rateLimiterWaitActual 5000 3000) ∧
    (waitWithRateLimitActual 5000 6000 = 2000 ∧ rateLimiterWaitActual 5000 6000 = 0) :=
  ⟨(c5_rate_limit_wait_amended 0 (1 / 2) 3000 5000 (by norm_num) (by norm_num)
      (by norm_num) (by norm_num) getRandomDelay_eval.symm).1 (by norm_num),
   (c5_rate_limit_wait_amended 0 (1 / 2) 6000 5000 (by norm_num) (by norm_num)
      (by norm_num) (by norm_num) getRandomDelay_eval.symm).2 (by norm_num)⟩


/-! ## URL normalization: list lemmas and the algebraic identities of
`normalizeUrl` -/

theorem takeWhile_append_all (p : Char → Bool) (a b : Str) (h : ∀ c ∈ a, p c = true) :
    (a ++ b).takeWhile p = a ++ b.takeWhile p := by
  induction a with
  | nil => rfl
  | cons x xs ih => simp_all [List.takeWhile_cons]

theorem takeWhile_all (p : Char → Bool) (a : Str) (h : ∀ c ∈ a, p c = true) :
    a.takeWhile p = a := by
  have := takeWhile_append_all p a [] h
  simpa using this

theorem dropWhile_ws_cons (c : Char) (l : Str) (hc : c.isWhitespace = false) :
    (c :: l).dropWhile Char.isWhitespace = c :: l := by
  simp [List.dropWhile_cons, hc]

theorem dropWhile_ws_append (u : Str) (c : Char) (v : Str) (hc : c.isWhitespace = false) :
    (u ++ c :: v).dropWhile Char.isWhitespace = u.dropWhile Char.isWhitespace ++ c :: v := by
  induction u with
  | nil => simp [List.dropWhile_cons, hc]
  | cons a u ih => by_cases h : a.isWhitespace <;> simp [List.dropWhile_cons, h, ih]

theorem dropWhile_all_keep (p : Char → Bool) (a : Str) (h : ∀ c ∈ a, p c = false) :
    a.dropWhile p = a := by
  cases a with
  | nil => rfl
  | cons x xs => simp [List.dropWhile_cons, h x (by simp)]

theorem trimRight_no_ws (a : Str) (h : ∀ c ∈ a, c.isWhitespace = false) :
    trimRight a = a := by
  unfold trimRight
  rw [dropWhile_all_keep _ _ (by simpa using fun c hc => h c (by simpa using hc))]
  exact a.reverse_reverse

theorem trimRight_append_cons (a : Str) (c : Char) (v : Str)
    (hc : c.isWhitespace = false) :
    trimRight (a ++ c :: v) = a ++ c :: trimRight v := by
  unfold trimRight
  rw [List.reverse_append, List.reverse_cons, List.append_assoc, List.singleton_append,
    dropWhile_ws_append _ c (a.reverse) hc]
  simp

theorem jsTrim_cons_append (c : Char) (a x : Str) (hc : c.isWhitespace = false) :
    jsTrim ((c :: a) ++ x) = trimRight ((c :: a) ++ x) := by
  unfold jsTrim
  rw [List.cons_append, dropWhile_ws_cons c (a ++ x) hc]

theorem trimRight_http (y : Str) :
    trimRight ('h' :: 't' :: 't' :: 'p' :: ':' :: '/' :: '/' :: y) =
      'h' :: 't' :: 't' :: 'p' :: ':' :: '/' :: '/' :: trimRight y := by
  have h := trimRight_append_cons ['h','t','t','p',':','/'] '/' y (by decide)
  simpa using h

theorem trimRight_https (y : Str) :
    trimRight ('h' :: 't' :: 't' :: 'p' :: 's' :: ':' :: '/' :: '/' :: y) =
      'h' :: 't' :: 't' :: 'p' :: 's' :: ':' :: '/' :: '/' :: trimRight y := by
  have h := trimRight_append_cons ['h','t','t','p','s',':','/'] '/' y (by decide)
  simpa using h

theorem lowerL_cons (c : Char) (y : Str) : lowerL (c :: y) = c.toLower :: lowerL y := rfl

theorem normStr_http (r : Str) :
    normStr ('h' :: 't' :: 't' :: 'p' :: ':' :: '/' :: '/' :: r) =
      stripWww (lowerL (trimRight (splitH (splitQ r)))) := by
  unfold normStr splitQ splitH jsTrim
  simp [List.takeWhile_cons, List.dropWhile_cons]
  rw [trimRight_http]
  rw [lowerL_cons, lowerL_cons, lowerL_cons, lowerL_cons, lowerL_cons, lowerL_cons, lowerL_cons]
  simp only [show Char.toLower 'h' = 'h' from by decide, show Char.toLower 't' = 't' from by decide,
    show Char.toLower 'p' = 'p' from by decide, show Char.toLower ':' = ':' from by decide,
    show Char.toLower '/' = '/' from by decide]
  rfl

theorem normStr_https (r : Str) :
    normStr ('h' :: 't' :: 't' :: 'p' :: 's' :: ':' :: '/' :: '/' :: r) =
      stripWww (lowerL (trimRight (splitH (splitQ r)))) := by
  unfold normStr splitQ splitH jsTrim
  simp [List.takeWhile_cons, List.dropWhile_cons]
  rw [trimRight_https]
  rw [lowerL_cons, lowerL_cons, lowerL_cons, lowerL_cons, lowerL_cons, lowerL_cons, lowerL_cons,
    lowerL_cons]
  simp only [show Char.toLower 'h' = 'h' from by decide, show Char.toLower 't' = 't' from by decide,
    show Char.toLower 'p' = 'p' from by decide, show Char.toLower 's' = 's' from by decide,
    show Char.toLower ':' = ':' from by decide, show Char.toLower '/' = '/' from by decide]
  rfl

theorem normalizeUrl_cons (c : Char) (rest : Str) (hc : ¬c = 'N') :
    normalizeUrl (some (c :: rest)) = coreOf (normStr (c :: rest)) := by
  show (if c :: rest = [] then none
    else if c :: rest = "N/A".toList then none else coreOf (normStr (c :: rest))) =
      coreOf (normStr (c :: rest))
  rw [if_neg (by simp), if_neg (by simp [hc])]

/-- C6 part (i): protocol invariance, with no side conditions. -/
theorem urlInv_protocol (r : Str) :
    normalizeUrl (some ("http://".toList ++ r)) = normalizeUrl (some ("https://".toList ++ r)) := by
  show normalizeUrl (some ('h' :: 't' :: 't' :: 'p' :: ':' :: '/' :: '/' :: r)) =
    normalizeUrl (some ('h' :: 't' :: 't' :: 'p' :: 's' :: ':' :: '/' :: '/' :: r))
  rw [normalizeUrl_cons _ _ (by decide), normalizeUrl_cons _ _ (by decide),
    normStr_http, normStr_https]
theorem isPrefixOf_iff_ex (a b : Str) : a.isPrefixOf b = true ↔ ∃ t, a ++ t = b := by
  induction a generalizing b with
  | nil => simp [List.isPrefixOf]
  | cons x xs ih =>
    cases b with
    | nil => simp [List.isPrefixOf]
    | cons y ys =>
      simp only [List.isPrefixOf, Bool.and_eq_true, beq_iff_eq, ih, List.cons_append,
        List.cons.injEq]
      constructor
      · rintro ⟨rfl, t, rfl⟩
        exact ⟨t, rfl, rfl⟩
      · rintro ⟨t, rfl, rfl⟩
        exact ⟨rfl, t, rfl⟩

theorem takeWhile_append_slash (a : Str) :
    (a ++ ['/']).takeWhile (fun ch => ch != '/') = a.takeWhile (fun ch => ch != '/') := by
  induction a with
  | nil => simp
  | cons c rest ih => by_cases h : c = '/' <;> simp [List.takeWhile_cons, h, ih]

theorem rstripSlash_append_slash (x : Str) : rstripSlash (x ++ ['/']) = rstripSlash x := by
  unfold rstripSlash
  simp [List.dropWhile_cons]

theorem linkedinSlug_append_slash (x : Str) : linkedinSlug (x ++ ['/']) = linkedinSlug x := by
  induction x with
  | nil => rfl
  | cons c rest ih =>
    show linkedinSlug (c :: (rest ++ ['/'])) = linkedinSlug (c :: rest)
    by_cases hpre : companyLit.isPrefixOf (c :: rest) = true
    · have hpre' : companyLit.isPrefixOf (c :: (rest ++ ['/'])) = true := by
        obtain ⟨t, ht⟩ := (isPrefixOf_iff_ex _ _).mp hpre
        refine (isPrefixOf_iff_ex _ _).mpr ⟨t ++ ['/'], ?_⟩
        rw [← List.append_assoc, ht]
        rfl
      have hlen : companyLit.length ≤ (c :: rest).length := by
        obtain ⟨t, ht⟩ := (isPrefixOf_iff_ex _ _).mp hpre
        calc companyLit.length ≤ companyLit.length + t.length := by omega
        _ = (c :: rest).length := by rw [← List.length_append, ht]
      have hdrop : (c :: (rest ++ ['/'])).drop companyLit.length =
          ((c :: rest).drop companyLit.length) ++ ['/'] := by
        rw [show (c :: (rest ++ ['/'])) = (c :: rest) ++ ['/'] from rfl]
        rw [List.drop_append_eq_append_drop]
        rw [show companyLit.length - (c :: rest).length = 0 from by omega]
        rfl
      unfold linkedinSlug
      rw [if_pos hpre', if_pos hpre, hdrop, takeWhile_append_slash]
      by_cases hempty : (((c :: rest).drop companyLit.length).takeWhile
          (fun ch => ch != '/')).isEmpty = true
      · rw [if_pos hempty, if_pos hempty]
        exact ih
      · rw [if_neg hempty, if_neg hempty]
    · by_cases hpre3 : companyLit.isPrefixOf (c :: (rest ++ ['/'])) = true
      · -- the appended slash completes the literal: companyLit = (c :: rest) ++ ['/']
        obtain ⟨t, ht⟩ := (isPrefixOf_iff_ex _ _).mp hpre3
        rw [show c :: (rest ++ ['/']) = (c :: rest) ++ ['/'] from rfl] at ht
        have ht0 : t = [] := by
          rcases t with _ | ⟨a, t'⟩
          · rfl
          · exfalso
            apply hpre
            have hlc := congrArg List.length ht
            have e1 : (c :: rest).length = rest.length + 1 := by simp
            have e2 : (companyLit ++ a :: t').length =
                companyLit.length + (t'.length + 1) := by simp
            have e3 : ((c :: rest) ++ ['/']).length = (c :: rest).length + 1 := by simp
            have hlen2 : companyLit.length ≤ (c :: rest).length := by omega
            apply (isPrefixOf_iff_ex _ _).mpr
            refine ⟨(c :: rest).drop companyLit.length, ?_⟩
            have htake := congrArg (List.take companyLit.length) ht
            rw [List.take_left, List.take_append_of_le_length hlen2] at htake
            calc companyLit ++ (c :: rest).drop companyLit.length
                = (c :: rest).take companyLit.length ++ (c :: rest).drop companyLit.length := by
                  rw [← htake]
              _ = c :: rest := List.take_append_drop _ _
        subst ht0
        rw [List.append_nil] at ht
        unfold linkedinSlug
        rw [if_pos hpre3, if_neg hpre]
        have hdropempty : (c :: (rest ++ ['/'])).drop companyLit.length = [] := by
          rw [show (c :: (rest ++ ['/'])) = (c :: rest) ++ ['/'] from rfl, ← ht]
          simp
        rw [hdropempty]
        simp only [List.takeWhile_nil, List.isEmpty_nil, if_pos]
        exact ih
      · unfold linkedinSlug
        rw [if_neg hpre3, if_neg hpre]
        exact ih

theorem coreOf_append_slash (x : Str) : coreOf (x ++ ['/']) = coreOf x := by
  unfold coreOf
  rw [linkedinSlug_append_slash, rstripSlash_append_slash]
theorem stripProtocol_no_colon (s : Str) (h : ':' ∉ s) : stripProtocol s = s := by
  unfold stripProtocol
  split
  · exact absurd (by simp) h
  · exact absurd (by simp) h
  · rfl

theorem stripWww_take4 (s : Str) (h : s.take 4 ≠ "www.".toList) : stripWww s = s := by
  unfold stripWww
  split
  · exact absurd rfl h
  · rfl

theorem lowerL_append (a b : Str) : lowerL (a ++ b) = lowerL a ++ lowerL b :=
  List.map_append _ a b

theorem plain_chars_bne (s : Str) (hp : plainStr s) :
    (∀ c ∈ s, (c != '?') = true) ∧ (∀ c ∈ s, (c != '#') = true) ∧
    (∀ c ∈ s, c.isWhitespace = false) := by
  refine ⟨fun c hc => ?_, fun c hc => ?_, fun c hc => (hp.1 c hc).2.2⟩
  · simpa [bne_iff_ne] using (hp.1 c hc).1
  · simpa [bne_iff_ne] using (hp.1 c hc).2.1

theorem jsTrim_plain (s : Str) (hp : plainStr s) : jsTrim s = s := by
  unfold jsTrim
  rw [dropWhile_all_keep _ _ (plain_chars_bne s hp).2.2]
  exact trimRight_no_ws s (plain_chars_bne s hp).2.2

theorem normStr_plain (s : Str) (hp : plainStr s) :
    normStr s = stripWww (stripProtocol s) := by
  unfold normStr splitQ splitH
  rw [takeWhile_all _ s (plain_chars_bne s hp).1,
    takeWhile_all _ s (plain_chars_bne s hp).2.1,
    jsTrim_plain s hp, hp.2]

theorem lower_stable_head (c : Char) (rest : Str) (h : lowerL (c :: rest) = c :: rest) :
    ¬c = 'N' := by
  intro hcN
  subst hcN
  rw [lowerL_cons] at h
  injection h with h1 _
  exact absurd h1 (by decide)

theorem normalizeUrl_plain (u : Str) (hp : plainStr u) (hc : ':' ∉ u)
    (hw : u.take 4 ≠ "www.".toList) :
    normalizeUrl (some u) = coreOf u := by
  rcases u with _ | ⟨c, rest⟩
  · rfl
  · rw [normalizeUrl_cons c rest (lower_stable_head c rest hp.2), normStr_plain _ hp,
      stripProtocol_no_colon _ hc, stripWww_take4 _ hw]

theorem plain_cons (c : Char) (s : Str) (h1 : ¬c = '?') (h2 : ¬c = '#')
    (h3 : c.isWhitespace = false) (h4 : c.toLower = c) (hp : plainStr s) :
    plainStr (c :: s) := by
  constructor
  · intro d hd
    rcases List.mem_cons.mp hd with rfl | hd
    · exact ⟨h1, h2, h3⟩
    · exact hp.1 d hd
  · rw [lowerL_cons, h4, hp.2]

theorem plain_append_slash (u : Str) (hp : plainStr u) : plainStr (u ++ ['/']) := by
  constructor
  · intro d hd
    rcases List.mem_append.mp hd with hd | hd
    · exact hp.1 d hd
    · rcases List.mem_singleton.mp hd with rfl
      exact ⟨by decide, by decide, by decide⟩
  · rw [lowerL_append, hp.2]
    rfl

/-- C6 part (ii): a single leading `www.` is stripped, so it does not affect
the result, provided the remainder does not itself start with `www.`. -/
theorem urlInv_www (r : Str) (hp : plainStr r) (hc : ':' ∉ r)
    (hw : r.take 4 ≠ "www.".toList) :
    normalizeUrl (some ("www.".toList ++ r)) = normalizeUrl (some r) := by
  show normalizeUrl (some ('w' :: 'w' :: 'w' :: '.' :: r)) = normalizeUrl (some r)
  have hpw : plainStr ('w' :: 'w' :: 'w' :: '.' :: r) := by
    refine plain_cons _ _ (by decide) (by decide) (by decide) (by decide) ?_
    refine plain_cons _ _ (by decide) (by decide) (by decide) (by decide) ?_
    refine plain_cons _ _ (by decide) (by decide) (by decide) (by decide) ?_
    exact plain_cons _ _ (by decide) (by decide) (by decide) (by decide) hp
  have hcw : ':' ∉ ('w' :: 'w' :: 'w' :: '.' :: r) := by
    intro hmem
    rcases List.mem_cons.mp hmem with h | hmem
    · exact absurd h (by decide)
    rcases List.mem_cons.mp hmem with h | hmem
    · exact absurd h (by decide)
    rcases List.mem_cons.mp hmem with h | hmem
    · exact absurd h (by decide)
    rcases List.mem_cons.mp hmem with h | hmem
    · exact absurd h (by decide)
    exact hc hmem
  rw [normalizeUrl_cons _ _ (by decide), normStr_plain _ hpw, stripProtocol_no_colon _ hcw,
    show stripWww ('w' :: 'w' :: 'w' :: '.' :: r) = r from rfl, normalizeUrl_plain r hp hc hw]

/-- C6 part (iii): a trailing slash never affects the result. -/
theorem urlInv_slash (u : Str) (hp : plainStr u) (hc : ':' ∉ u) :
    normalizeUrl (some (u ++ ['/'])) = normalizeUrl (some u) := by
  have hp' : plainStr (u ++ ['/']) := plain_append_slash u hp
  have hc' : ':' ∉ u ++ ['/'] := by
    intro hmem
    rcases List.mem_append.mp hmem with h | h
    · exact hc h
    · exact absurd (List.mem_singleton.mp h) (by decide)
  by_cases hw : u.take 4 = "www.".toList
  · -- u itself starts with www.: both sides strip it, then the slash lemma applies
    obtain ⟨t, rfl⟩ : ∃ t, u = 'w' :: 'w' :: 'w' :: '.' :: t := by
      rcases u with _ | ⟨a, _ | ⟨b, _ | ⟨d, _ | ⟨e, u'⟩⟩⟩⟩ <;> simp [List.take] at hw
      obtain ⟨rfl, rfl, rfl, rfl⟩ := hw
      exact ⟨u', rfl⟩
    have hpw' : plainStr ('w' :: 'w' :: 'w' :: '.' ::(t ++ ['/'])) := by
      simpa using hp'
    rw [show ('w' :: 'w' :: 'w' :: '.' :: t) ++ ['/'] = 'w' :: 'w' :: 'w' :: '.' ::(t ++ ['/']) from rfl]
    rw [normalizeUrl_cons _ _ (by decide), normalizeUrl_cons _ _ (by decide)]
    have hcw : ':' ∉ ('w' :: 'w' :: 'w' :: '.' ::(t ++ ['/'])) := by
      simpa using hc'
    have hcw2 : ':' ∉ ('w' :: 'w' :: 'w' :: '.' :: t) := hc
    rw [normStr_plain _ hpw', normStr_plain _ hp, stripProtocol_no_colon _ hcw,
      stripProtocol_no_colon _ hcw2,
      show stripWww ('w' :: 'w' :: 'w' :: '.' ::(t ++ ['/'])) = t ++ ['/'] from rfl,
      show stripWww ('w' :: 'w' :: 'w' :: '.' :: t) = t from rfl]
    exact coreOf_append_slash t
  · have hw' : (u ++ ['/']).take 4 ≠ "www.".toList := by
      rcases u with _ | ⟨a, _ | ⟨b, _ | ⟨d, _ | ⟨e, u'⟩⟩⟩⟩ <;>
        simp [List.take] at hw ⊢ <;> tauto
    rw [normalizeUrl_plain _ hp' hc' hw', normalizeUrl_plain u hp hc hw]
    exact coreOf_append_slash u
theorem linkedinSlug_canonical (slug rest2 : Str) (hne : slug ≠ [])
    (hnoslash : ∀ c ∈ slug, ¬c = '/')
    (hrest : rest2 = [] ∨ ∃ s', rest2 = '/' :: s') :
    linkedinSlug (companyLit ++ (slug ++ rest2)) = some slug := by
  rw [linkedinSlug.eq_def]
  split
  · rename_i heq
    exact absurd heq (by simp [companyLit])
  · rename_i c rest heq
    rw [← heq]
    have hpre : companyLit.isPrefixOf (companyLit ++ (slug ++ rest2)) = true :=
      (isPrefixOf_iff_ex _ _).mpr ⟨slug ++ rest2, rfl⟩
    rw [if_pos hpre, List.drop_left]
    have htw : (slug ++ rest2).takeWhile (fun ch => ch != '/') = slug := by
      rw [takeWhile_append_all _ slug rest2
        (fun d hd => by simpa [bne_iff_ne] using hnoslash d hd)]
      rcases hrest with rfl | ⟨s', rfl⟩
      · simp
      · simp [List.takeWhile_cons]
    rw [htw]
    rw [if_neg (by simpa [List.isEmpty_iff] using hne)]

theorem stripProtocol_lit (x : Str) : stripProtocol (companyLit ++ x) = companyLit ++ x := rfl

theorem stripWww_lit (x : Str) : stripWww (companyLit ++ x) = companyLit ++ x := rfl

theorem lowerL_lit : lowerL companyLit = companyLit := by decide

theorem jsTrim_lit_append (y : Str) : jsTrim (companyLit ++ y) = trimRight (companyLit ++ y) := by
  unfold jsTrim
  rw [show companyLit ++ y = 'l' :: ("inkedin.com/company/".toList ++ y) from rfl,
    dropWhile_ws_cons _ _ (by decide)]

theorem plain_append (a b : Str) (ha : plainStr a) (hb : plainStr b) : plainStr (a ++ b) := by
  constructor
  · intro d hd
    rcases List.mem_append.mp hd with hd | hd
    · exact ha.1 d hd
    · exact hb.1 d hd
  · rw [lowerL_append, ha.2, hb.2]

theorem plainStr_lit : plainStr companyLit := by
  constructor
  · decide
  · decide

theorem slugOk_plain (slug : Str) (h : slugOk slug) : plainStr slug :=
  ⟨fun c hc => ⟨(h.1 c hc).2.1, (h.1 c hc).2.2.1, (h.1 c hc).2.2.2⟩, h.2⟩

theorem normalizeUrl_some (url : Str) (h1 : url ≠ []) (h2 : url ≠ "N/A".toList) :
    normalizeUrl (some url) = coreOf (normStr url) := by
  show (if url = [] then none
    else if url = "N/A".toList then none else coreOf (normStr url)) = coreOf (normStr url)
  rw [if_neg h1, if_neg h2]

theorem normStr_lit_slash (slug w : Str) (hok : slugOk slug) :
    normStr (companyLit ++ (slug ++ '/' :: w)) =
      companyLit ++ (slug ++ '/' :: lowerL (trimRight (splitH (splitQ w)))) := by
  have hq1 : ∀ d ∈ companyLit ++ slug, (d != '?') = true := by
    intro d hd
    rcases List.mem_append.mp hd with hd | hd
    · exact (by decide : ∀ x ∈ companyLit, (x != '?') = true) d hd
    · simpa [bne_iff_ne] using (hok.1 d hd).2.1
  have hq2 : ∀ d ∈ companyLit ++ slug, (d != '#') = true := by
    intro d hd
    rcases List.mem_append.mp hd with hd | hd
    · exact (by decide : ∀ x ∈ companyLit, (x != '#') = true) d hd
    · simpa [bne_iff_ne] using (hok.1 d hd).2.2.1
  unfold normStr splitQ splitH
  rw [← List.append_assoc companyLit slug]
  rw [takeWhile_append_all _ _ _ hq1]
  rw [show ('/' :: w).takeWhile (fun c => c != '?') =
      '/' :: w.takeWhile (fun c => c != '?') from by simp [List.takeWhile_cons]]
  rw [takeWhile_append_all _ _ _ hq2]
  rw [show ('/' :: w.takeWhile (fun c => c != '?')).takeWhile (fun c => c != '#') =
      '/' :: (w.takeWhile (fun c => c != '?')).takeWhile (fun c => c != '#') from by
    simp [List.takeWhile_cons]]
  rw [List.append_assoc companyLit slug, jsTrim_lit_append, ← List.append_assoc companyLit slug]
  rw [trimRight_append_cons _ '/' _ (by decide)]
  rw [lowerL_append, lowerL_cons]
  rw [lowerL_append, lowerL_lit, hok.2]
  rw [show Char.toLower '/' = '/' from by decide]
  rw [List.append_assoc companyLit slug, stripProtocol_lit, stripWww_lit]

/-- C6 part (iv): every sub-page variant of a company detail page collapses
to the canonical `linkedin.com/company/<slug>` form. -/
theorem urlInv_subpath (slug sub : Str) (hne : slug ≠ []) (hok : slugOk slug)
    (hsub : sub = [] ∨ ∃ s3, sub = '/' :: s3) :
    normalizeUrl (some (companyLit ++ (slug ++ sub))) = some (companyLit ++ slug) := by
  have hnz : companyLit ++ (slug ++ sub) ≠ [] := by simp [companyLit]
  have hna : companyLit ++ (slug ++ sub) ≠ "N/A".toList := by
    intro heq
    have hh := congrArg List.head? heq
    rw [show (companyLit ++ (slug ++ sub)).head? = some 'l' from rfl,
      show ("N/A".toList : Str).head? = some 'N' from rfl] at hh
    exact absurd hh (by decide)
  rw [normalizeUrl_some _ hnz hna]
  have hslash : ∀ c ∈ slug, ¬c = '/' := fun c hc => (hok.1 c hc).1
  rcases hsub with rfl | ⟨s3, rfl⟩
  · rw [List.append_nil]
    have hplain : plainStr (companyLit ++ slug) :=
      plain_append _ _ plainStr_lit (slugOk_plain slug hok)
    rw [normStr_plain _ hplain, stripProtocol_lit, stripWww_lit]
    unfold coreOf
    rw [show companyLit ++ slug = companyLit ++ (slug ++ []) from by simp,
      linkedinSlug_canonical slug [] hne hslash (Or.inl rfl)]
    simp
  · rw [normStr_lit_slash slug s3 hok]
    unfold coreOf
    rw [linkedinSlug_canonical slug _ hne hslash (Or.inr ⟨_, rfl⟩)]

theorem linkedinSlug_none_of_no_lit (s : Str) (h : containsLit s = false) :
    linkedinSlug s = none := by
  induction s with
  | nil => rfl
  | cons c rest ih =>
    unfold containsLit containsSeg at h
    rw [Bool.or_eq_false_iff] at h
    unfold linkedinSlug
    rw [if_neg (by simp [h.1])]
    exact ih (by unfold containsLit; exact h.2)

/-- C6 part (v): for URLs not containing the company literal (and already in
plain, protocol-free, `www.`-free form) only trailing slashes are removed. -/
theorem urlInv_plainTail (u : Str) (hp : plainStr u) (hc : ':' ∉ u)
    (hw : u.take 4 ≠ "www.".toList) (hlit : containsLit u = false) :
    normalizeUrl (some u) = if rstripSlash u = [] then none else some (rstripSlash u) := by
  rw [normalizeUrl_plain u hp hc hw]
  unfold coreOf
  rw [linkedinSlug_none_of_no_lit u hlit]

/-- C6 (amended): the invariances of `normalizeUrl`, qualified as the code
forces.  (i) Protocol (`http` vs `https`) never matters.  (ii) A leading
`www.` never matters, provided the remainder does not itself begin with
`www.` (only one `www.` is stripped).  (iii) A trailing slash never matters
for plain URLs (no query/fragment/whitespace characters, lowercase, no
colon).  (iv) Every sub-path variant of a target-domain detail page
collapses to the canonical `linkedin.com/company/<slug>` form.  (v) For
plain URLs outside the target domain, only trailing slashes are stripped. -/
theorem c6_normalizeUrl_invariance_amended :
    (∀ r : Str,
      normalizeUrl (some ("http://".toList ++ r)) =
        normalizeUrl (some ("https://".toList ++ r))) ∧
    (∀ r : Str, plainStr r → ':' ∉ r → r.take 4 ≠ "www.".toList →
      normalizeUrl (some ("www.".toList ++ r)) = normalizeUrl (some r)) ∧
    (∀ u : Str, plainStr u → ':' ∉ u →
      normalizeUrl (some (u ++ ['/'])) = normalizeUrl (some u)) ∧
    (∀ slug sub : Str, slug ≠ [] → slugOk slug → (sub = [] ∨ ∃ s3, sub = '/' :: s3) →
      normalizeUrl (some (companyLit ++ (slug ++ sub))) = some (companyLit ++ slug)) ∧
    (∀ u : Str, plainStr u → ':' ∉ u → u.take 4 ≠ "www.".toList → containsLit u = false →
      normalizeUrl (some u) = if rstripSlash u = [] then none else some (rstripSlash u)) :=
  ⟨urlInv_protocol, urlInv_www, urlInv_slash, urlInv_subpath, urlInv_plainTail⟩

/-- C6 (counterexample to the claim as stated): `'www.www.a'` and `'www.a'`
differ only by a leading `'www.'` prefix, yet they normalize differently —
only one `www.` is stripped — so "for every pair of URL strings that differ
only by … a leading www. prefix … normalizeUrl returns identical output"
fails. -/
theorem c6_double_www_counterexample :
    normalizeUrl (some ("www.www.a".toList)) = some ("www.a".toList) ∧
    normalizeUrl (some ("www.a".toList)) = some ("a".toList) ∧
    normalizeUrl (some ("www.www.a".toList)) ≠ normalizeUrl (some ("www.a".toList)) := by
  decide

/-- C6 witness: the amended theorem applied at concrete URLs. -/
theorem c6_witness :
    normalizeUrl (some ("www.example.com".toList)) =
      normalizeUrl (some ("example.com".toList)) ∧
    normalizeUrl (some ("example.com/a/".toList)) =
      normalizeUrl (some ("example.com/a".toList)) ∧
    normalizeUrl (some (companyLit ++ ("acme".toList ++ "/about/".toList))) =
      some (companyLit ++ "acme".toList) := by
  refine ⟨?_, ?_, ?_⟩
  · have h := c6_normalizeUrl_invariance_amended.2.1 ("example.com".toList)
      ⟨by decide, by decide⟩ (by decide) (by decide)
    rw [show ("www.example.com".toList : Str) =
      "www.".toList ++ "example.com".toList from by decide]
    exact h
  · have h := c6_normalizeUrl_invariance_amended.2.2.1 ("example.com/a".toList)
      ⟨by decide, by decide⟩ (by decide)
    rw [show ("example.com/a/".toList : Str) =
      "example.com/a".toList ++ ['/'] from by decide]
    exact h
  · exact c6_normalizeUrl_invariance_amended.2.2.2.1 ("acme".toList) ("/about/".toList)
      (by decide) ⟨by decide, by decide⟩ (Or.inr ⟨"about/".toList, rfl⟩)


/-! ## The company queue: per-item effects and loop continuation -/

/-- Per-item specification of `processCompany`: the trace grows by a block
whose tab creations balance tab removals, holding exactly one item marker and
no page-level events; the detail tab ends closed; the run flags and page
counters are untouched; and the error log grows by exactly the one entry for
this item when the item fails, else not at all. -/
theorem processCompany_spec (ie : ItemEnv) (url : Str) (σ : Sys) (hat : σ.activeTab = false) :
    ∃ Δ, (processCompany ie url σ).trace = σ.trace ++ Δ ∧
      Δ.countP isTabCreateEvent = Δ.countP isTabRemoveEvent ∧
      Δ.countP isItemMarkerEvent = 1 ∧
      Δ.countP isProcessingPageEvent = 0 ∧
      Δ.countP isClickEvent = 0 ∧
      (processCompany ie url σ).activeTab = false ∧
      (processCompany ie url σ).st.isRunning = σ.st.isRunning ∧
      (processCompany ie url σ).st.isPaused = σ.st.isPaused ∧
      (processCompany ie url σ).st.currentPage = σ.st.currentPage ∧
      (processCompany ie url σ).st.startPage = σ.st.startPage ∧
      (processCompany ie url σ).st.maxPages = σ.st.maxPages ∧
      (itemFails ie url σ.storage = true →
        (processCompany ie url σ).st.errors = σ.st.errors ++ [ErrTag.company url]) ∧
      (itemFails ie url σ.storage = false →
        (processCompany ie url σ).st.errors = σ.st.errors) := by
  by_cases hdup : isDuplicateCompany (some ⟨some url, some []⟩) σ.storage = true
  · have he : processCompany ie url σ =
        { σ with
          st := { σ.st with processedCompanies := σ.st.processedCompanies + 1 }
          trace := σ.trace ++ [Event.statusSkippedDup url] } := by
      unfold processCompany
      rw [if_pos hdup]
    have hfail : itemFails ie url σ.storage = false := by
      unfold itemFails
      rw [hdup]
      rfl
    refine ⟨[Event.statusSkippedDup url], ?_, ?_, ?_, ?_, ?_, ?_, ?_, ?_, ?_, ?_, ?_, ?_, ?_⟩ <;>
      (try rw [he]) <;>
      simp [List.countP_cons, isTabCreateEvent, isTabRemoveEvent, isItemMarkerEvent,
        isProcessingPageEvent, isClickEvent, hat, hfail]
  · have hdup' : isDuplicateCompany (some ⟨some url, some []⟩) σ.storage = false := by
      simpa using hdup
    have hfail : itemFails ie url σ.storage =
        (!ie.openOk || !ie.loadOk || ie.extract.isNone) := by
      unfold itemFails
      rw [hdup']
      rfl
    by_cases hopen : ie.openOk = true
    · by_cases hload : ie.loadOk = true
      · rcases hext : ie.extract with _ | data
        · -- extraction failed
          have he : processCompany ie url σ =
              { σ with
                st := { σ.st with errors := σ.st.errors ++ [ErrTag.company url] }
                activeTab := false
                trace := σ.trace ++ [Event.statusScraping (σ.st.processedCompanies + 1),
                  Event.tabCreate (toAboutUrl url), Event.tabRemove] } := by
            unfold processCompany
            rw [if_neg (by simp [hdup']), if_neg (by simp [hopen]), if_neg (by simp [hload]),
              hext]
            simp
          have hf : itemFails ie url σ.storage = true := by
            rw [hfail, hext]
            simp
          refine ⟨[Event.statusScraping (σ.st.processedCompanies + 1),
              Event.tabCreate (toAboutUrl url), Event.tabRemove],
            ?_, ?_, ?_, ?_, ?_, ?_, ?_, ?_, ?_, ?_, ?_, ?_, ?_⟩ <;>
            (try rw [he]) <;>
            simp [List.countP_cons, isTabCreateEvent, isTabRemoveEvent, isItemMarkerEvent,
              isProcessingPageEvent, isClickEvent, hf]
        · -- success path
          have he : processCompany ie url σ =
              (let r := saveCompanyData data σ.storage
               let σ3 :=
                 { σ with
                   storage := r.2
                   trace := σ.trace ++ [Event.statusScraping (σ.st.processedCompanies + 1),
                     Event.tabCreate (toAboutUrl url)]
                   activeTab := true }
               let σ4 :=
                 if r.1 then
                   { σ3 with
                     st := { σ3.st with processedCompanies := σ3.st.processedCompanies + 1 }
                     trace := σ3.trace ++
                       [Event.companyScraped data.name (σ3.st.processedCompanies + 1)] }
                 else
                   { σ3 with st := { σ3.st with
                     processedCompanies := σ3.st.processedCompanies + 1 } }
               { σ4 with
                 activeTab := false
                 trace := σ4.trace ++ [Event.tabRemove] }) := by
            unfold processCompany
            rw [if_neg (by simp [hdup']), if_neg (by simp [hopen]), if_neg (by simp [hload]),
              hext]
            simp
          have hf : itemFails ie url σ.storage = false := by
            rw [hfail, hext]
            simp [hopen, hload]
          by_cases hadd : (saveCompanyData data σ.storage).1 = true
          · have he2 : processCompany ie url σ =
                { σ with
                  storage := (saveCompanyData data σ.storage).2
                  st := { σ.st with processedCompanies := σ.st.processedCompanies + 1 }
                  trace := σ.trace ++ [Event.statusScraping (σ.st.processedCompanies + 1),
                    Event.tabCreate (toAboutUrl url),
                    Event.companyScraped data.name (σ.st.processedCompanies + 1),
                    Event.tabRemove]
                  activeTab := false } := by
              rw [he]
              simp [hadd]
            refine ⟨[Event.statusScraping (σ.st.processedCompanies + 1),
                Event.tabCreate (toAboutUrl url),
                Event.companyScraped data.name (σ.st.processedCompanies + 1),
                Event.tabRemove], ?_, ?_, ?_, ?_, ?_, ?_, ?_, ?_, ?_, ?_, ?_, ?_, ?_⟩ <;>
              (try rw [he2]) <;>
              simp [List.countP_cons, isTabCreateEvent, isTabRemoveEvent, isItemMarkerEvent,
                isProcessingPageEvent, isClickEvent, hf]
          · have hadd' : (saveCompanyData data σ.storage).1 = false := by simpa using hadd
            have he2 : processCompany ie url σ =
                { σ with
                  storage := (saveCompanyData data σ.storage).2
                  st := { σ.st with processedCompanies := σ.st.processedCompanies + 1 }
                  trace := σ.trace ++ [Event.statusScraping (σ.st.processedCompanies + 1),
                    Event.tabCreate (toAboutUrl url),
                    Event.tabRemove]
                  activeTab := false } := by
              rw [he]
              simp [hadd']
            refine ⟨[Event.statusScraping (σ.st.processedCompanies + 1),
                Event.tabCreate (toAboutUrl url),
                Event.tabRemove], ?_, ?_, ?_, ?_, ?_, ?_, ?_, ?_, ?_, ?_, ?_, ?_, ?_⟩ <;>
              (try rw [he2]) <;>
              simp [List.countP_cons, isTabCreateEvent, isTabRemoveEvent, isItemMarkerEvent,
                isProcessingPageEvent, isClickEvent, hf]
      · -- tab load failed
        have hload' : ie.loadOk = false := by simpa using hload
        have he : processCompany ie url σ =
            { σ with
              st := { σ.st with errors := σ.st.errors ++ [ErrTag.company url] }
              activeTab := false
              trace := σ.trace ++ [Event.statusScraping (σ.st.processedCompanies + 1),
                Event.tabCreate (toAboutUrl url), Event.tabRemove] } := by
          unfold processCompany
          rw [if_neg (by simp [hdup']), if_neg (by simp [hopen]), if_pos (by simp [hload'])]
          simp
        have hf : itemFails ie url σ.storage = true := by
          rw [hfail, hload']
          simp
        refine ⟨[Event.statusScraping (σ.st.processedCompanies + 1),
            Event.tabCreate (toAboutUrl url), Event.tabRemove],
          ?_, ?_, ?_, ?_, ?_, ?_, ?_, ?_, ?_, ?_, ?_, ?_, ?_⟩ <;>
          (try rw [he]) <;>
          simp [List.countP_cons, isTabCreateEvent, isTabRemoveEvent, isItemMarkerEvent,
            isProcessingPageEvent, isClickEvent, hf]
    · -- tab creation failed
      have hopen' : ie.openOk = false := by simpa using hopen
      have he : processCompany ie url σ =
          { σ with
            st := { σ.st with errors := σ.st.errors ++ [ErrTag.company url] }
            trace := σ.trace ++ [Event.statusScraping (σ.st.processedCompanies + 1)] } := by
        unfold processCompany
        rw [if_neg (by simp [hdup']), if_pos (by simp [hopen'])]
      have hf : itemFails ie url σ.storage = true := by
        rw [hfail, hopen']
        simp
      refine ⟨[Event.statusScraping (σ.st.processedCompanies + 1)],
        ?_, ?_, ?_, ?_, ?_, ?_, ?_, ?_, ?_, ?_, ?_, ?_, ?_⟩ <;>
        (try rw [he]) <;>
        simp [List.countP_cons, isTabCreateEvent, isTabRemoveEvent, isItemMarkerEvent,
          isProcessingPageEvent, isClickEvent, hat, hf]

theorem processCompanyQueueAux_spec (ienv : Nat → ItemEnv) (rem : List Str) :
    ∀ (i : Nat) (σ : Sys), σ.st.isRunning = true → σ.st.isPaused = false →
      σ.activeTab = false →
    ∃ Δ, (processCompanyQueueAux ienv rem i σ).trace = σ.trace ++ Δ ∧
      Δ.countP isItemMarkerEvent = rem.length ∧
      Δ.countP isTabCreateEvent = Δ.countP isTabRemoveEvent ∧
      Δ.countP isProcessingPageEvent = 0 ∧
      Δ.countP isClickEvent = 0 ∧
      (processCompanyQueueAux ienv rem i σ).activeTab = false ∧
      (processCompanyQueueAux ienv rem i σ).st.isRunning = true ∧
      (processCompanyQueueAux ienv rem i σ).st.isPaused = false ∧
      (processCompanyQueueAux ienv rem i σ).st.currentPage = σ.st.currentPage ∧
      (processCompanyQueueAux ienv rem i σ).st.startPage = σ.st.startPage ∧
      (processCompanyQueueAux ienv rem i σ).st.maxPages = σ.st.maxPages := by
  induction rem with
  | nil =>
    intro i σ hrun hpau hat
    refine ⟨[], ?_, ?_, ?_, ?_, ?_, ?_, ?_, ?_, ?_, ?_, ?_⟩ <;>
      simp [processCompanyQueueAux, hrun, hpau, hat]
  | cons url rest ih =>
    intro i σ hrun hpau hat
    have hstep : processCompanyQueueAux ienv (url :: rest) i σ =
        processCompanyQueueAux ienv rest (i + 1)
          (processCompany (ienv i) url
            { σ with st := { σ.st with currentCompanyIndex := i } }) := by
      rw [processCompanyQueueAux]
      rw [if_neg (by simp [hrun, hpau])]
    obtain ⟨Δ1, ht1, hb1, hm1, hp1, hc1, ha1, hr1, hq1, hcp1, hsp1, hmp1, _, _⟩ :=
      processCompany_spec (ienv i) url
        { σ with st := { σ.st with currentCompanyIndex := i } } hat
    obtain ⟨Δ2, ht2, hm2, hb2, hp2, hc2, ha2, hr2, hq2, hcp2, hsp2, hmp2⟩ :=
      ih (i + 1) (processCompany (ienv i) url
          { σ with st := { σ.st with currentCompanyIndex := i } })
        (by rw [hr1]; exact hrun) (by rw [hq1]; exact hpau) ha1
    refine ⟨Δ1 ++ Δ2, ?_, ?_, ?_, ?_, ?_, ?_, ?_, ?_, ?_, ?_, ?_⟩
    · rw [hstep, ht2, ht1]
      simp
    · rw [List.countP_append, hm1, hm2, List.length_cons]
      omega
    · rw [List.countP_append, List.countP_append, hb1, hb2]
    · rw [List.countP_append, hp1, hp2]
    · rw [List.countP_append, hc1, hc2]
    · rw [hstep]; exact ha2
    · rw [hstep]; exact hr2
    · rw [hstep]; exact hq2
    · rw [hstep, hcp2, hcp1]
    · rw [hstep, hsp2, hsp1]
    · rw [hstep, hmp2, hmp1]

/-- C8: on every queue item, a failure opening, loading or extracting
(`itemFails`) appends exactly one error description to the run's error log
while a non-failing item leaves the log unchanged; the detail tab is closed
unconditionally (tab creations balance tab removals and no tab stays open);
and the queue loop is not halted by failures: every remaining item is still
visited (one item marker each) with the tabs balanced over the whole loop. -/
theorem c8_item_failure_isolated_tab_closed
    (ie : ItemEnv) (url : Str) (σ : Sys) (hat : σ.activeTab = false)
    (ienv : Nat → ItemEnv) (rem : List Str) (i : Nat) (τ : Sys)
    (hrun : τ.st.isRunning = true) (hpau : τ.st.isPaused = false)
    (hat2 : τ.activeTab = false) :
    (∃ Δ, (processCompany ie url σ).trace = σ.trace ++ Δ ∧
        Δ.countP isTabCreateEvent = Δ.countP isTabRemoveEvent ∧
        (processCompany ie url σ).activeTab = false ∧
        (itemFails ie url σ.storage = true →
          (processCompany ie url σ).st.errors = σ.st.errors ++ [ErrTag.company url]) ∧
        (itemFails ie url σ.storage = false →
          (processCompany ie url σ).st.errors = σ.st.errors)) ∧
    (∃ Δ, (processCompanyQueueAux ienv rem i τ).trace = τ.trace ++ Δ ∧
        Δ.countP isItemMarkerEvent = rem.length ∧
        Δ.countP isTabCreateEvent = Δ.countP isTabRemoveEvent ∧
        (processCompanyQueueAux ienv rem i τ).activeTab = false) := by
  constructor
  · obtain ⟨Δ, h1, h2, _, _, _, h6, _, _, _, _, _, h12, h13⟩ := processCompany_spec ie url σ hat
    exact ⟨Δ, h1, h2, h6, h12, h13⟩
  · obtain ⟨Δ, h1, h2, h3, _, _, h4, _, _, _, _, _⟩ :=
      processCompanyQueueAux_spec ienv rem i τ hrun hpau hat2
    exact ⟨Δ, h1, h2, h3, h4⟩

/-- Concrete instance of the C8 theorem: a single-item queue whose item fails
to open its detail tab. -/
theorem c8_witness :
    (∃ Δ, (processCompany c8IE c8url c8σ).trace = c8σ.trace ++ Δ ∧
        Δ.countP isTabCreateEvent = Δ.countP isTabRemoveEvent ∧
        (processCompany c8IE c8url c8σ).activeTab = false ∧
        (itemFails c8IE c8url c8σ.storage = true →
          (processCompany c8IE c8url c8σ).st.errors =
            c8σ.st.errors ++ [ErrTag.company c8url]) ∧
        (itemFails c8IE c8url c8σ.storage = false →
          (processCompany c8IE c8url c8σ).st.errors = c8σ.st.errors)) ∧
    (∃ Δ, (processCompanyQueueAux (fun _ => c8IE) [c8url] 0 c8σ).trace = c8σ.trace ++ Δ ∧
        Δ.countP isItemMarkerEvent = [c8url].length ∧
        Δ.countP isTabCreateEvent = Δ.countP isTabRemoveEvent ∧
        (processCompanyQueueAux (fun _ => c8IE) [c8url] 0 c8σ).activeTab = false) :=
  c8_item_failure_isolated_tab_closed c8IE c8url c8σ (by decide)
    (fun _ => c8IE) [c8url] 0 c8σ (by decide) (by decide) (by decide)


/-! ## Pause and resume -/

/-- C4 (amended): the pause flag is checked at the top of every queue
iteration, so with `isPaused` set the loop is an identity — no further item is
visited and `processedCompanies` does not advance while paused.  Resuming,
however, does not continue from the saved cursor: when still running,
`resumeScraping` re-runs the page's queue from index `0`, re-visiting the
already-handled prefix. -/
theorem c4_pause_resume_amended
    (ienv : Nat → ItemEnv) (rem : List Str) (i : Nat) (σ : Sys)
    (hpau : σ.st.isPaused = true) (τ : Sys) (hrun : τ.st.isRunning = true) :
    processCompanyQueueAux ienv rem i σ = σ ∧
    resumeScraping ienv τ =
      processCompanyQueueAux ienv τ.st.companyQueue 0
        { τ with
          st := { τ.st with isPaused := false }
          trace := τ.trace ++ [Event.scrapingResumed] } := by
  constructor
  · cases rem with
    | nil => rfl
    | cons url rest =>
      rw [processCompanyQueueAux]
      rw [if_pos (by simp [hpau])]
  · simp [resumeScraping, processCompanyQueue, hrun]

/-- The paused `[A, B]` run: the cursor is `0`, one item was processed before
the pause, yet the resumed run ends with `processedCompanies = 3` — item A is
re-visited (its skip status is re-emitted) because the loop restarted at
index `0` instead of the saved cursor. -/
theorem c4_cursor_counterexample :
    c4PausedState.st.currentCompanyIndex = 0 ∧
    c4PausedState.st.processedCompanies = 1 ∧
    c4Resumed.st.processedCompanies = 3 ∧
    Event.statusSkippedDup c4urlA ∈ c4Resumed.trace := by decide

/-- Concrete instance of the C4 amended theorem on the paused `[A, B]` run. -/
theorem c4_witness :
    processCompanyQueueAux c4ItemEnv [c4urlA, c4urlB] 0 c4PausedState = c4PausedState ∧
    resumeScraping c4ItemEnv c4PausedState =
      processCompanyQueueAux c4ItemEnv c4PausedState.st.companyQueue 0
        { c4PausedState with
          st := { c4PausedState.st with isPaused := false }
          trace := c4PausedState.trace ++ [Event.scrapingResumed] } :=
  c4_pause_resume_amended c4ItemEnv [c4urlA, c4urlB] 0 c4PausedState (by decide)
    c4PausedState (by decide)


/-! ## The A/B/C listing scenario -/

/-- C7: on the listing page yielding items A, B, C where A and C are already
slug-matched duplicates of the store and B is new, the `maxPages = 1` run
builds the pending queue containing only B, reports 3 items found on the page
(duplicates included), ends with exactly 1 item processed, creates a detail
tab only for B (never for A or C), and completes. -/
theorem c7_listing_dedup_scenario :
    isDuplicateCompany (some ⟨some c7urlA, some ("Acme Inc".toList)⟩) c7Storage = true ∧
    isDuplicateCompany (some ⟨some c7urlC, some ("C".toList)⟩) c7Storage = true ∧
    isDuplicateCompany (some ⟨some c7urlB, some ("Beta".toList)⟩) c7Storage = false ∧
    c7Run.st.companyQueue = [c7urlB] ∧
    c7Run.st.totalCompaniesFound = 3 ∧
    c7Run.st.processedCompanies = 1 ∧
    Event.companiesFound 3 1 ∈ c7Run.trace ∧
    c7Run.trace.filter (fun e => isTabCreateEvent e) = [Event.tabCreate (toAboutUrl c7urlB)] ∧
    Event.scrapingComplete ∈ c7Run.trace := by decide


/-! ## The page budget -/

theorem completeScraping_spec (σ : Sys) (hat : σ.activeTab = false) :
    completeScraping σ =
      { σ with
        st := { σ.st with isRunning := false, isPaused := false }
        trace := σ.trace ++ [Event.scrapingComplete] } := by
  unfold completeScraping
  simp [hat]

theorem processCurrentPage_succ (env : Env) (k fuel : Nat) (σ : Sys) :
    processCurrentPage env k (fuel + 1) σ =
      if (!σ.st.isRunning || σ.st.isPaused) = true then σ
      else
        match (env.page k).extractUrls with
        | none =>
          completeScraping
            { σ with
              st := { σ.st with errors := σ.st.errors ++ [ErrTag.page σ.st.currentPage] }
              trace := (σ.trace ++ [Event.statusProcessingPage σ.st.currentPage]) ++
                [Event.statusError] }
        | some companiesData =>
          let σ1 :=
            if companiesData.length = 0 then
              { σ with
                st := { σ.st with companyQueue := [] }
                trace := (σ.trace ++ [Event.statusProcessingPage σ.st.currentPage]) ++
                  [Event.statusNoCompanies σ.st.currentPage] }
            else
              let filtered := companiesData.filter
                (fun it => !(isDuplicateCompany (some ⟨some it.1, some it.2⟩) σ.storage))
              let σa :=
                { σ with
                  st := { σ.st with
                    companyQueue := filtered.map Prod.fst,
                    totalCompaniesFound := σ.st.totalCompaniesFound + companiesData.length,
                    currentCompanyIndex := 0 },
                  trace := (σ.trace ++ [Event.statusProcessingPage σ.st.currentPage]) ++
                    [Event.companiesFound companiesData.length σ.st.currentPage] ++
                    (if companiesData.length - filtered.length ≠ 0 then
                      [Event.statusPageSummary σ.st.currentPage]
                    else []) }
              if filtered.length ≠ 0 then processCompanyQueue (env.item k) σa
              else { σa with trace := σa.trace ++ [Event.statusAllDup σa.st.currentPage] }
          if σ1.st.isRunning = true ∧ σ1.st.isPaused = false ∧
              σ1.st.currentPage - σ1.st.startPage + 1 < σ1.st.maxPages then
            goToNextPage env k fuel σ1
          else completeScraping σ1 := by
  rfl

theorem goToNextPage_bound (env : Env) (fuel : Nat)
    (ih : PCPBound env fuel) (k : Nat) (σ1 : Sys)
    (hat : σ1.activeTab = false)
    (hlt : σ1.st.currentPage - σ1.st.startPage + 1 < σ1.st.maxPages) :
    ∃ Δ, (goToNextPage env k fuel σ1).trace = σ1.trace ++ Δ ∧
      Δ.countP isProcessingPageEvent ≤
        (σ1.st.maxPages - (σ1.st.currentPage - σ1.st.startPage) - 1).toNat ∧
      Δ.countP isClickEvent ≤
        (σ1.st.maxPages - (σ1.st.currentPage - σ1.st.startPage) - 1).toNat ∧
      (goToNextPage env k fuel σ1).st.startPage = σ1.st.startPage ∧
      (goToNextPage env k fuel σ1).st.maxPages = σ1.st.maxPages ∧
      (goToNextPage env k fuel σ1).st.currentPage - σ1.st.startPage + 1 ≤ σ1.st.maxPages := by
  by_cases htv : (env.page k).tabValid = false
  · have he : goToNextPage env k fuel σ1 =
        { σ1 with
          st := { σ1.st with
            isRunning := false, isPaused := false,
            errors := σ1.st.errors ++ [ErrTag.pagination (σ1.st.currentPage + 1)] }
          trace := (σ1.trace ++ [Event.statusError]) ++ [Event.scrapingComplete] } := by
      simp [goToNextPage, goToNextPageStep, completeScraping, htv, hat]
    refine ⟨[Event.statusError, Event.scrapingComplete], ?_, ?_, ?_, ?_, ?_, ?_⟩ <;>
      (try rw [he]) <;>
      simp [isProcessingPageEvent, isClickEvent] <;> omega
  · by_cases hck : (env.page k).clickOk = false
    · by_cases hq : σ1.st.companyQueue.length = 0 ∧ σ1.st.processedCompanies = 0
      · have he : goToNextPage env k fuel σ1 =
            { σ1 with
              st := { σ1.st with
                isRunning := false, isPaused := false,
                errors := σ1.st.errors ++ [ErrTag.pagination (σ1.st.currentPage + 1)] }
              trace := ((σ1.trace ++ [Event.clickNextPage]) ++ [Event.statusError]) ++
                [Event.scrapingComplete] } := by
          simp [goToNextPage, goToNextPageStep, completeScraping, htv, hck, hq, hat]
        refine ⟨[Event.clickNextPage, Event.statusError, Event.scrapingComplete],
            ?_, ?_, ?_, ?_, ?_, ?_⟩ <;>
          (try rw [he]) <;>
          simp [isProcessingPageEvent, isClickEvent] <;> omega
      · have hq2 : ¬(σ1.st.companyQueue = [] ∧ σ1.st.processedCompanies = 0) := by
          simpa using hq
        have he : goToNextPage env k fuel σ1 =
            { σ1 with
              st := { σ1.st with isRunning := false, isPaused := false }
              trace := (σ1.trace ++ [Event.clickNextPage]) ++ [Event.scrapingComplete] } := by
          simp [goToNextPage, goToNextPageStep, completeScraping, htv, hck, hq2, hat]
        refine ⟨[Event.clickNextPage, Event.scrapingComplete], ?_, ?_, ?_, ?_, ?_, ?_⟩ <;>
          (try rw [he]) <;>
          simp [isProcessingPageEvent, isClickEvent] <;> omega
    · by_cases hsos : (env.page k).stillOnSearch = false
      · have he : goToNextPage env k fuel σ1 =
            { σ1 with
              st := { σ1.st with
                isRunning := false, isPaused := false,
                currentPage := σ1.st.currentPage + 1,
                errors := σ1.st.errors ++ [ErrTag.pagination (σ1.st.currentPage + 1 + 1)] }
              trace := ((σ1.trace ++ [Event.clickNextPage]) ++ [Event.statusError]) ++
                [Event.scrapingComplete] } := by
          simp [goToNextPage, goToNextPageStep, completeScraping, htv, hck, hsos, hat]
        refine ⟨[Event.clickNextPage, Event.statusError, Event.scrapingComplete],
            ?_, ?_, ?_, ?_, ?_, ?_⟩ <;>
          (try rw [he]) <;>
          simp [isProcessingPageEvent, isClickEvent] <;> omega
      · have he : goToNextPage env k fuel σ1 =
            processCurrentPage env (k + 1) fuel
              { σ1 with
                st := { σ1.st with currentPage := σ1.st.currentPage + 1 }
                trace := σ1.trace ++ [Event.clickNextPage] } := by
          simp [goToNextPage, goToNextPageStep, htv, hck, hsos]
        obtain ⟨Δr, htr, hpr, hcr, hsr, hmr, hfr⟩ :=
          ih (k + 1)
            { σ1 with
              st := { σ1.st with currentPage := σ1.st.currentPage + 1 }
              trace := σ1.trace ++ [Event.clickNextPage] }
            (by simp; omega) (by simpa using hat)
        refine ⟨Event.clickNextPage :: Δr, ?_, ?_, ?_, ?_, ?_, ?_⟩
        · rw [he, htr]
          simp
        · have hpr2 : Δr.countP isProcessingPageEvent ≤
              (σ1.st.maxPages - (σ1.st.currentPage + 1 - σ1.st.startPage)).toNat := by
            simpa using hpr
          have hpp : (Event.clickNextPage :: Δr).countP isProcessingPageEvent =
              Δr.countP isProcessingPageEvent := by
            simp [List.countP_cons, isProcessingPageEvent]
          rw [hpp]
          omega
        · have hcr2 : Δr.countP isClickEvent ≤
              (σ1.st.maxPages - (σ1.st.currentPage + 1 - σ1.st.startPage) - 1).toNat := by
            simpa using hcr
          have hcc : (Event.clickNextPage :: Δr).countP isClickEvent =
              Δr.countP isClickEvent + 1 := by
            simp [List.countP_cons, isClickEvent]
          rw [hcc]
          omega
        · rw [he, hsr]
        · rw [he, hmr]
        · rw [he]
          simp at hfr ⊢
          omega

theorem afterPage_bound (env : Env) (fuel : Nat) (ih : PCPBound env fuel) (k : Nat) (σ1 : Sys)
    (hat1 : σ1.activeTab = false)
    (hd1 : σ1.st.currentPage - σ1.st.startPage + 1 ≤ σ1.st.maxPages) :
    ∃ Δ, (if σ1.st.isRunning = true ∧ σ1.st.isPaused = false ∧
            σ1.st.currentPage - σ1.st.startPage + 1 < σ1.st.maxPages then
            goToNextPage env k fuel σ1
          else completeScraping σ1).trace = σ1.trace ++ Δ ∧
      Δ.countP isProcessingPageEvent ≤
        (σ1.st.maxPages - (σ1.st.currentPage - σ1.st.startPage) - 1).toNat ∧
      Δ.countP isClickEvent ≤
        (σ1.st.maxPages - (σ1.st.currentPage - σ1.st.startPage) - 1).toNat ∧
      (if σ1.st.isRunning = true ∧ σ1.st.isPaused = false ∧
            σ1.st.currentPage - σ1.st.startPage + 1 < σ1.st.maxPages then
            goToNextPage env k fuel σ1
          else completeScraping σ1).st.startPage = σ1.st.startPage ∧
      (if σ1.st.isRunning = true ∧ σ1.st.isPaused = false ∧
            σ1.st.currentPage - σ1.st.startPage + 1 < σ1.st.maxPages then
            goToNextPage env k fuel σ1
          else completeScraping σ1).st.maxPages = σ1.st.maxPages ∧
      (if σ1.st.isRunning = true ∧ σ1.st.isPaused = false ∧
            σ1.st.currentPage - σ1.st.startPage + 1 < σ1.st.maxPages then
            goToNextPage env k fuel σ1
          else completeScraping σ1).st.currentPage - σ1.st.startPage + 1 ≤
        σ1.st.maxPages := by
  by_cases hgo : σ1.st.isRunning = true ∧ σ1.st.isPaused = false ∧
      σ1.st.currentPage - σ1.st.startPage + 1 < σ1.st.maxPages
  · simp only [if_pos hgo]
    exact goToNextPage_bound env fuel ih k σ1 hat1 hgo.2.2
  · simp only [if_neg hgo]
    refine ⟨[Event.scrapingComplete], ?_, ?_, ?_, ?_, ?_, ?_⟩ <;>
      simp [completeScraping_spec _ hat1, isProcessingPageEvent, isClickEvent] <;> omega

theorem processCurrentPage_bound (env : Env) : ∀ fuel, PCPBound env fuel := by
  intro fuel
  induction fuel with
  | zero =>
    intro k σ hd hat
    refine ⟨[], ?_, ?_, ?_, ?_, ?_, ?_⟩ <;> simp [processCurrentPage]
    exact hd
  | succ fuel ih =>
    intro k σ hd hat
    by_cases hg : (!σ.st.isRunning || σ.st.isPaused) = true
    · have he : processCurrentPage env k (fuel + 1) σ = σ := by
        rw [processCurrentPage_succ, if_pos hg]
      refine ⟨[], ?_, ?_, ?_, ?_, ?_, ?_⟩
      · rw [he]; simp
      · simp
      · simp
      · rw [he]
      · rw [he]
      · rw [he]; exact hd
    · obtain ⟨hrun, hpau⟩ : σ.st.isRunning = true ∧ σ.st.isPaused = false := by
        simpa [not_or] using hg
      rcases hx : (env.page k).extractUrls with _ | companiesData
      · have he : processCurrentPage env k (fuel + 1) σ =
            { σ with
              st := { σ.st with
                isRunning := false, isPaused := false,
                errors := σ.st.errors ++ [ErrTag.page σ.st.currentPage] }
              trace := ((σ.trace ++ [Event.statusProcessingPage σ.st.currentPage]) ++
                [Event.statusError]) ++ [Event.scrapingComplete] } := by
          rw [processCurrentPage_succ, if_neg hg, hx]
          simp [completeScraping, hat]
        refine ⟨[Event.statusProcessingPage σ.st.currentPage, Event.statusError,
            Event.scrapingComplete], ?_, ?_, ?_, ?_, ?_, ?_⟩ <;>
          (try rw [he]) <;>
          simp [List.countP_cons, isProcessingPageEvent, isClickEvent] <;> omega
      · by_cases hlen : companiesData.length = 0
        · have he : processCurrentPage env k (fuel + 1) σ =
              (if ({ σ with
                    st := { σ.st with companyQueue := ([] : List Str) }
                    trace := (σ.trace ++ [Event.statusProcessingPage σ.st.currentPage]) ++
                      [Event.statusNoCompanies σ.st.currentPage] } : Sys).st.isRunning = true ∧
                  ({ σ with
                    st := { σ.st with companyQueue := ([] : List Str) }
                    trace := (σ.trace ++ [Event.statusProcessingPage σ.st.currentPage]) ++
                      [Event.statusNoCompanies σ.st.currentPage] } : Sys).st.isPaused = false ∧
                  ({ σ with
                    st := { σ.st with companyQueue := ([] : List Str) }
                    trace := (σ.trace ++ [Event.statusProcessingPage σ.st.currentPage]) ++
                      [Event.statusNoCompanies σ.st.currentPage] } : Sys).st.currentPage -
                    ({ σ with
                      st := { σ.st with companyQueue := ([] : List Str) }
                      trace := (σ.trace ++ [Event.statusProcessingPage σ.st.currentPage]) ++
                        [Event.statusNoCompanies σ.st.currentPage] } : Sys).st.startPage + 1 <
                    ({ σ with
                      st := { σ.st with companyQueue := ([] : List Str) }
                      trace := (σ.trace ++ [Event.statusProcessingPage σ.st.currentPage]) ++
                        [Event.statusNoCompanies σ.st.currentPage] } : Sys).st.maxPages then
                goToNextPage env k fuel
                  { σ with
                    st := { σ.st with companyQueue := ([] : List Str) }
                    trace := (σ.trace ++ [Event.statusProcessingPage σ.st.currentPage]) ++
                      [Event.statusNoCompanies σ.st.currentPage] }
              else completeScraping
                  { σ with
                    st := { σ.st with companyQueue := ([] : List Str) }
                    trace := (σ.trace ++ [Event.statusProcessingPage σ.st.currentPage]) ++
                      [Event.statusNoCompanies σ.st.currentPage] }) := by
            rw [processCurrentPage_succ, if_neg hg, hx]
            simp only [if_pos hlen]
          obtain ⟨Δc, htc, hpc, hcc, hsc, hmc, hfc⟩ :=
            afterPage_bound env fuel ih k
              { σ with
                st := { σ.st with companyQueue := ([] : List Str) }
                trace := (σ.trace ++ [Event.statusProcessingPage σ.st.currentPage]) ++
                  [Event.statusNoCompanies σ.st.currentPage] }
              (by simpa using hat) (by simpa using hd)
          refine ⟨Event.statusProcessingPage σ.st.currentPage ::
              Event.statusNoCompanies σ.st.currentPage :: Δc, ?_, ?_, ?_, ?_, ?_, ?_⟩
          · rw [he, htc]
            simp
          · have h1 : (Event.statusProcessingPage σ.st.currentPage ::
                Event.statusNoCompanies σ.st.currentPage :: Δc).countP isProcessingPageEvent =
                Δc.countP isProcessingPageEvent + 1 := by
              simp [List.countP_cons, isProcessingPageEvent]
            rw [h1]
            have h2 : Δc.countP isProcessingPageEvent ≤
                (σ.st.maxPages - (σ.st.currentPage - σ.st.startPage) - 1).toNat := by
              simpa using hpc
            omega
          · have h1 : (Event.statusProcessingPage σ.st.currentPage ::
                Event.statusNoCompanies σ.st.currentPage :: Δc).countP isClickEvent =
                Δc.countP isClickEvent := by
              simp [List.countP_cons, isClickEvent]
            rw [h1]
            have h2 : Δc.countP isClickEvent ≤
                (σ.st.maxPages - (σ.st.currentPage - σ.st.startPage) - 1).toNat := by
              simpa using hcc
            omega
          · rw [he]
            simpa using hsc
          · rw [he]
            simpa using hmc
          · rw [he]
            simpa using hfc
        · by_cases hfil : (companiesData.filter (fun it => !(isDuplicateCompany (some ⟨some it.1, some it.2⟩) σ.storage))).length ≠ 0
          · have he : processCurrentPage env k (fuel + 1) σ =
                (if (processCompanyQueueAux (env.item k) ((companiesData.filter (fun it => !(isDuplicateCompany (some ⟨some it.1, some it.2⟩) σ.storage))).map Prod.fst) 0
            { σ with
              st := { σ.st with
                companyQueue := (companiesData.filter (fun it => !(isDuplicateCompany (some ⟨some it.1, some it.2⟩) σ.storage))).map Prod.fst,
                totalCompaniesFound := σ.st.totalCompaniesFound + companiesData.length,
                currentCompanyIndex := 0 }
              trace := (σ.trace ++ [Event.statusProcessingPage σ.st.currentPage]) ++
                [Event.companiesFound companiesData.length σ.st.currentPage] ++ (if companiesData.length - (companiesData.filter (fun it => !(isDuplicateCompany (some ⟨some it.1, some it.2⟩) σ.storage))).length ≠ 0 then [Event.statusPageSummary σ.st.currentPage] else []) }).st.isRunning = true ∧ (processCompanyQueueAux (env.item k) ((companiesData.filter (fun it => !(isDuplicateCompany (some ⟨some it.1, some it.2⟩) σ.storage))).map Prod.fst) 0
            { σ with
              st := { σ.st with
                companyQueue := (companiesData.filter (fun it => !(isDuplicateCompany (some ⟨some it.1, some it.2⟩) σ.storage))).map Prod.fst,
                totalCompaniesFound := σ.st.totalCompaniesFound + companiesData.length,
                currentCompanyIndex := 0 }
              trace := (σ.trace ++ [Event.statusProcessingPage σ.st.currentPage]) ++
                [Event.companiesFound companiesData.length σ.st.currentPage] ++ (if companiesData.length - (companiesData.filter (fun it => !(isDuplicateCompany (some ⟨some it.1, some it.2⟩) σ.storage))).length ≠ 0 then [Event.statusPageSummary σ.st.currentPage] else []) }).st.isPaused = false ∧
              (processCompanyQueueAux (env.item k) ((companiesData.filter (fun it => !(isDuplicateCompany (some ⟨some it.1, some it.2⟩) σ.storage))).map Prod.fst) 0
            { σ with
              st := { σ.st with
                companyQueue := (companiesData.filter (fun it => !(isDuplicateCompany (some ⟨some it.1, some it.2⟩) σ.storage))).map Prod.fst,
                totalCompaniesFound := σ.st.totalCompaniesFound + companiesData.length,
                currentCompanyIndex := 0 }
              trace := (σ.trace ++ [Event.statusProcessingPage σ.st.currentPage]) ++
                [Event.companiesFound companiesData.length σ.st.currentPage] ++ (if companiesData.length - (companiesData.filter (fun it => !(isDuplicateCompany (some ⟨some it.1, some it.2⟩) σ.storage))).length ≠ 0 then [Event.statusPageSummary σ.st.currentPage] else []) }).st.currentPage - (processCompanyQueueAux (env.item k) ((companiesData.filter (fun it => !(isDuplicateCompany (some ⟨some it.1, some it.2⟩) σ.storage))).map Prod.fst) 0
            { σ with
              st := { σ.st with
                companyQueue := (companiesData.filter (fun it => !(isDuplicateCompany (some ⟨some it.1, some it.2⟩) σ.storage))).map Prod.fst,
                totalCompaniesFound := σ.st.totalCompaniesFound + companiesData.length,
                currentCompanyIndex := 0 }
              trace := (σ.trace ++ [Event.statusProcessingPage σ.st.currentPage]) ++
                [Event.companiesFound companiesData.length σ.st.currentPage] ++ (if companiesData.length - (companiesData.filter (fun it => !(isDuplicateCompany (some ⟨some it.1, some it.2⟩) σ.storage))).length ≠ 0 then [Event.statusPageSummary σ.st.currentPage] else []) }).st.startPage + 1 < (processCompanyQueueAux (env.item k) ((companiesData.filter (fun it => !(isDuplicateCompany (some ⟨some it.1, some it.2⟩) σ.storage))).map Prod.fst) 0
            { σ with
              st := { σ.st with
                companyQueue := (companiesData.filter (fun it => !(isDuplicateCompany (some ⟨some it.1, some it.2⟩) σ.storage))).map Prod.fst,
                totalCompaniesFound := σ.st.totalCompaniesFound + companiesData.length,
                currentCompanyIndex := 0 }
              trace := (σ.trace ++ [Event.statusProcessingPage σ.st.currentPage]) ++
                [Event.companiesFound companiesData.length σ.st.currentPage] ++ (if companiesData.length - (companiesData.filter (fun it => !(isDuplicateCompany (some ⟨some it.1, some it.2⟩) σ.storage))).length ≠ 0 then [Event.statusPageSummary σ.st.currentPage] else []) }).st.maxPages then
            goToNextPage env k fuel
            (processCompanyQueueAux (env.item k) ((companiesData.filter (fun it => !(isDuplicateCompany (some ⟨some it.1, some it.2⟩) σ.storage))).map Prod.fst) 0
            { σ with
              st := { σ.st with
                companyQueue := (companiesData.filter (fun it => !(isDuplicateCompany (some ⟨some it.1, some it.2⟩) σ.storage))).map Prod.fst,
                totalCompaniesFound := σ.st.totalCompaniesFound + companiesData.length,
                currentCompanyIndex := 0 }
              trace := (σ.trace ++ [Event.statusProcessingPage σ.st.currentPage]) ++
                [Event.companiesFound companiesData.length σ.st.currentPage] ++ (if companiesData.length - (companiesData.filter (fun it => !(isDuplicateCompany (some ⟨some it.1, some it.2⟩) σ.storage))).length ≠ 0 then [Event.statusPageSummary σ.st.currentPage] else []) })
          else completeScraping
            (processCompanyQueueAux (env.item k) ((companiesData.filter (fun it => !(isDuplicateCompany (some ⟨some it.1, some it.2⟩) σ.storage))).map Prod.fst) 0
            { σ with
              st := { σ.st with
                companyQueue := (companiesData.filter (fun it => !(isDuplicateCompany (some ⟨some it.1, some it.2⟩) σ.storage))).map Prod.fst,
                totalCompaniesFound := σ.st.totalCompaniesFound + companiesData.length,
                currentCompanyIndex := 0 }
              trace := (σ.trace ++ [Event.statusProcessingPage σ.st.currentPage]) ++
                [Event.companiesFound companiesData.length σ.st.currentPage] ++ (if companiesData.length - (companiesData.filter (fun it => !(isDuplicateCompany (some ⟨some it.1, some it.2⟩) σ.storage))).length ≠ 0 then [Event.statusPageSummary σ.st.currentPage] else []) })) := by
              rw [processCurrentPage_succ, if_neg hg, hx]
              simp only [if_neg hlen, if_pos hfil, processCompanyQueue]
            obtain ⟨Δq, htq, _, _, hpq, hcq, haq, hrq, hqq, hcpq, hspq, hmpq⟩ :=
              processCompanyQueueAux_spec (env.item k) ((companiesData.filter (fun it => !(isDuplicateCompany (some ⟨some it.1, some it.2⟩) σ.storage))).map Prod.fst) 0
                { σ with
              st := { σ.st with
                companyQueue := (companiesData.filter (fun it => !(isDuplicateCompany (some ⟨some it.1, some it.2⟩) σ.storage))).map Prod.fst,
                totalCompaniesFound := σ.st.totalCompaniesFound + companiesData.length,
                currentCompanyIndex := 0 }
              trace := (σ.trace ++ [Event.statusProcessingPage σ.st.currentPage]) ++
                [Event.companiesFound companiesData.length σ.st.currentPage] ++ (if companiesData.length - (companiesData.filter (fun it => !(isDuplicateCompany (some ⟨some it.1, some it.2⟩) σ.storage))).length ≠ 0 then [Event.statusPageSummary σ.st.currentPage] else []) }
                (by simpa using hrun) (by simpa using hpau) (by simpa using hat)
            obtain ⟨Δc, htc, hpc, hcc, hsc, hmc, hfc⟩ :=
              afterPage_bound env fuel ih k
                (processCompanyQueueAux (env.item k) ((companiesData.filter (fun it => !(isDuplicateCompany (some ⟨some it.1, some it.2⟩) σ.storage))).map Prod.fst) 0
            { σ with
              st := { σ.st with
                companyQueue := (companiesData.filter (fun it => !(isDuplicateCompany (some ⟨some it.1, some it.2⟩) σ.storage))).map Prod.fst,
                totalCompaniesFound := σ.st.totalCompaniesFound + companiesData.length,
                currentCompanyIndex := 0 }
              trace := (σ.trace ++ [Event.statusProcessingPage σ.st.currentPage]) ++
                [Event.companiesFound companiesData.length σ.st.currentPage] ++ (if companiesData.length - (companiesData.filter (fun it => !(isDuplicateCompany (some ⟨some it.1, some it.2⟩) σ.storage))).length ≠ 0 then [Event.statusPageSummary σ.st.currentPage] else []) })
                haq
                (by
                  rw [hcpq, hspq, hmpq]
                  simpa using hd)
            have hite1 : ((if companiesData.length - (companiesData.filter (fun it => !(isDuplicateCompany (some ⟨some it.1, some it.2⟩) σ.storage))).length ≠ 0 then [Event.statusPageSummary σ.st.currentPage] else [])).countP isProcessingPageEvent = 0 := by
              split <;> simp [isProcessingPageEvent]
            have hite2 : ((if companiesData.length - (companiesData.filter (fun it => !(isDuplicateCompany (some ⟨some it.1, some it.2⟩) σ.storage))).length ≠ 0 then [Event.statusPageSummary σ.st.currentPage] else [])).countP isClickEvent = 0 := by
              split <;> simp [isClickEvent]
            have hpc2 : Δc.countP isProcessingPageEvent ≤
                (σ.st.maxPages - (σ.st.currentPage - σ.st.startPage) - 1).toNat := by
              rw [hcpq, hspq, hmpq] at hpc
              simpa using hpc
            have hcc2 : Δc.countP isClickEvent ≤
                (σ.st.maxPages - (σ.st.currentPage - σ.st.startPage) - 1).toNat := by
              rw [hcpq, hspq, hmpq] at hcc
              simpa using hcc
            refine ⟨Event.statusProcessingPage σ.st.currentPage ::
                Event.companiesFound companiesData.length σ.st.currentPage ::
                (((if companiesData.length - (companiesData.filter (fun it => !(isDuplicateCompany (some ⟨some it.1, some it.2⟩) σ.storage))).length ≠ 0 then [Event.statusPageSummary σ.st.currentPage] else [])) ++ (Δq ++ Δc)), ?_, ?_, ?_, ?_, ?_, ?_⟩
            · rw [he, htc, htq]
              simp
            · simp only [List.countP_cons, List.countP_append, hite1, hpq]
              simp [isProcessingPageEvent]
              omega
            · simp only [List.countP_cons, List.countP_append, hite2, hcq]
              simp [isClickEvent]
              omega
            · rw [he, hsc, hspq]
            · rw [he, hmc, hmpq]
            · rw [he]
              have e1 : (processCompanyQueueAux (env.item k) ((companiesData.filter (fun it => !(isDuplicateCompany (some ⟨some it.1, some it.2⟩) σ.storage))).map Prod.fst) 0
                  { σ with
              st := { σ.st with
                companyQueue := (companiesData.filter (fun it => !(isDuplicateCompany (some ⟨some it.1, some it.2⟩) σ.storage))).map Prod.fst,
                totalCompaniesFound := σ.st.totalCompaniesFound + companiesData.length,
                currentCompanyIndex := 0 }
              trace := (σ.trace ++ [Event.statusProcessingPage σ.st.currentPage]) ++
                [Event.companiesFound companiesData.length σ.st.currentPage] ++ (if companiesData.length - (companiesData.filter (fun it => !(isDuplicateCompany (some ⟨some it.1, some it.2⟩) σ.storage))).length ≠ 0 then [Event.statusPageSummary σ.st.currentPage] else []) }).st.startPage = σ.st.startPage := by
                rw [hspq]
              have e2 : (processCompanyQueueAux (env.item k) ((companiesData.filter (fun it => !(isDuplicateCompany (some ⟨some it.1, some it.2⟩) σ.storage))).map Prod.fst) 0
                  { σ with
              st := { σ.st with
                companyQueue := (companiesData.filter (fun it => !(isDuplicateCompany (some ⟨some it.1, some it.2⟩) σ.storage))).map Prod.fst,
                totalCompaniesFound := σ.st.totalCompaniesFound + companiesData.length,
                currentCompanyIndex := 0 }
              trace := (σ.trace ++ [Event.statusProcessingPage σ.st.currentPage]) ++
                [Event.companiesFound companiesData.length σ.st.currentPage] ++ (if companiesData.length - (companiesData.filter (fun it => !(isDuplicateCompany (some ⟨some it.1, some it.2⟩) σ.storage))).length ≠ 0 then [Event.statusPageSummary σ.st.currentPage] else []) }).st.maxPages = σ.st.maxPages := by
                rw [hmpq]
              omega
          · have he : processCurrentPage env k (fuel + 1) σ =
                (if ({ σ with
              st := { σ.st with
                companyQueue := (companiesData.filter (fun it => !(isDuplicateCompany (some ⟨some it.1, some it.2⟩) σ.storage))).map Prod.fst,
                totalCompaniesFound := σ.st.totalCompaniesFound + companiesData.length,
                currentCompanyIndex := 0 }
              trace := (σ.trace ++ [Event.statusProcessingPage σ.st.currentPage]) ++
                [Event.companiesFound companiesData.length σ.st.currentPage] ++ (if companiesData.length - (companiesData.filter (fun it => !(isDuplicateCompany (some ⟨some it.1, some it.2⟩) σ.storage))).length ≠ 0 then [Event.statusPageSummary σ.st.currentPage] else []) ++
                [Event.statusAllDup σ.st.currentPage] } : Sys).st.isRunning = true ∧ ({ σ with
              st := { σ.st with
                companyQueue := (companiesData.filter (fun it => !(isDuplicateCompany (some ⟨some it.1, some it.2⟩) σ.storage))).map Prod.fst,
                totalCompaniesFound := σ.st.totalCompaniesFound + companiesData.length,
                currentCompanyIndex := 0 }
              trace := (σ.trace ++ [Event.statusProcessingPage σ.st.currentPage]) ++
                [Event.companiesFound companiesData.length σ.st.currentPage] ++ (if companiesData.length - (companiesData.filter (fun it => !(isDuplicateCompany (some ⟨some it.1, some it.2⟩) σ.storage))).length ≠ 0 then [Event.statusPageSummary σ.st.currentPage] else []) ++
                [Event.statusAllDup σ.st.currentPage] } : Sys).st.isPaused = false ∧
              ({ σ with
              st := { σ.st with
                companyQueue := (companiesData.filter (fun it => !(isDuplicateCompany (some ⟨some it.1, some it.2⟩) σ.storage))).map Prod.fst,
                totalCompaniesFound := σ.st.totalCompaniesFound + companiesData.length,
                currentCompanyIndex := 0 }
              trace := (σ.trace ++ [Event.statusProcessingPage σ.st.currentPage]) ++
                [Event.companiesFound companiesData.length σ.st.currentPage] ++ (if companiesData.length - (companiesData.filter (fun it => !(isDuplicateCompany (some ⟨some it.1, some it.2⟩) σ.storage))).length ≠ 0 then [Event.statusPageSummary σ.st.currentPage] else []) ++
                [Event.statusAllDup σ.st.currentPage] } : Sys).st.currentPage - ({ σ with
              st := { σ.st with
                companyQueue := (companiesData.filter (fun it => !(isDuplicateCompany (some ⟨some it.1, some it.2⟩) σ.storage))).map Prod.fst,
                totalCompaniesFound := σ.st.totalCompaniesFound + companiesData.length,
                currentCompanyIndex := 0 }
              trace := (σ.trace ++ [Event.statusProcessingPage σ.st.currentPage]) ++
                [Event.companiesFound companiesData.length σ.st.currentPage] ++ (if companiesData.length - (companiesData.filter (fun it => !(isDuplicateCompany (some ⟨some it.1, some it.2⟩) σ.storage))).length ≠ 0 then [Event.statusPageSummary σ.st.currentPage] else []) ++
                [Event.statusAllDup σ.st.currentPage] } : Sys).st.startPage + 1 < ({ σ with
              st := { σ.st with
                companyQueue := (companiesData.filter (fun it => !(isDuplicateCompany (some ⟨some it.1, some it.2⟩) σ.storage))).map Prod.fst,
                totalCompaniesFound := σ.st.totalCompaniesFound + companiesData.length,
                currentCompanyIndex := 0 }
              trace := (σ.trace ++ [Event.statusProcessingPage σ.st.currentPage]) ++
                [Event.companiesFound companiesData.length σ.st.currentPage] ++ (if companiesData.length - (companiesData.filter (fun it => !(isDuplicateCompany (some ⟨some it.1, some it.2⟩) σ.storage))).length ≠ 0 then [Event.statusPageSummary σ.st.currentPage] else []) ++
                [Event.statusAllDup σ.st.currentPage] } : Sys).st.maxPages then
            goToNextPage env k fuel
            ({ σ with
              st := { σ.st with
                companyQueue := (companiesData.filter (fun it => !(isDuplicateCompany (some ⟨some it.1, some it.2⟩) σ.storage))).map Prod.fst,
                totalCompaniesFound := σ.st.totalCompaniesFound + companiesData.length,
                currentCompanyIndex := 0 }
              trace := (σ.trace ++ [Event.statusProcessingPage σ.st.currentPage]) ++
                [Event.companiesFound companiesData.length σ.st.currentPage] ++ (if companiesData.length - (companiesData.filter (fun it => !(isDuplicateCompany (some ⟨some it.1, some it.2⟩) σ.storage))).length ≠ 0 then [Event.statusPageSummary σ.st.currentPage] else []) ++
                [Event.statusAllDup σ.st.currentPage] })
          else completeScraping
            ({ σ with
              st := { σ.st with
                companyQueue := (companiesData.filter (fun it => !(isDuplicateCompany (some ⟨some it.1, some it.2⟩) σ.storage))).map Prod.fst,
                totalCompaniesFound := σ.st.totalCompaniesFound + companiesData.length,
                currentCompanyIndex := 0 }
              trace := (σ.trace ++ [Event.statusProcessingPage σ.st.currentPage]) ++
                [Event.companiesFound companiesData.length σ.st.currentPage] ++ (if companiesData.length - (companiesData.filter (fun it => !(isDuplicateCompany (some ⟨some it.1, some it.2⟩) σ.storage))).length ≠ 0 then [Event.statusPageSummary σ.st.currentPage] else []) ++
                [Event.statusAllDup σ.st.currentPage] })) := by
              rw [processCurrentPage_succ, if_neg hg, hx]
              simp only [if_neg hlen, if_neg hfil]
            obtain ⟨Δc, htc, hpc, hcc, hsc, hmc, hfc⟩ :=
              afterPage_bound env fuel ih k
                ({ σ with
              st := { σ.st with
                companyQueue := (companiesData.filter (fun it => !(isDuplicateCompany (some ⟨some it.1, some it.2⟩) σ.storage))).map Prod.fst,
                totalCompaniesFound := σ.st.totalCompaniesFound + companiesData.length,
                currentCompanyIndex := 0 }
              trace := (σ.trace ++ [Event.statusProcessingPage σ.st.currentPage]) ++
                [Event.companiesFound companiesData.length σ.st.currentPage] ++ (if companiesData.length - (companiesData.filter (fun it => !(isDuplicateCompany (some ⟨some it.1, some it.2⟩) σ.storage))).length ≠ 0 then [Event.statusPageSummary σ.st.currentPage] else []) ++
                [Event.statusAllDup σ.st.currentPage] })
                (by simpa using hat) (by simpa using hd)
            have hite1 : ((if companiesData.length - (companiesData.filter (fun it => !(isDuplicateCompany (some ⟨some it.1, some it.2⟩) σ.storage))).length ≠ 0 then [Event.statusPageSummary σ.st.currentPage] else [])).countP isProcessingPageEvent = 0 := by
              split <;> simp [isProcessingPageEvent]
            have hite2 : ((if companiesData.length - (companiesData.filter (fun it => !(isDuplicateCompany (some ⟨some it.1, some it.2⟩) σ.storage))).length ≠ 0 then [Event.statusPageSummary σ.st.currentPage] else [])).countP isClickEvent = 0 := by
              split <;> simp [isClickEvent]
            have hpc2 : Δc.countP isProcessingPageEvent ≤
                (σ.st.maxPages - (σ.st.currentPage - σ.st.startPage) - 1).toNat := by
              simpa using hpc
            have hcc2 : Δc.countP isClickEvent ≤
                (σ.st.maxPages - (σ.st.currentPage - σ.st.startPage) - 1).toNat := by
              simpa using hcc
            refine ⟨Event.statusProcessingPage σ.st.currentPage ::
                Event.companiesFound companiesData.length σ.st.currentPage ::
                (((if companiesData.length - (companiesData.filter (fun it => !(isDuplicateCompany (some ⟨some it.1, some it.2⟩) σ.storage))).length ≠ 0 then [Event.statusPageSummary σ.st.currentPage] else [])) ++ ([Event.statusAllDup σ.st.currentPage] ++ Δc)), ?_, ?_, ?_, ?_, ?_, ?_⟩
            · rw [he, htc]
              simp
            · simp only [List.countP_cons, List.countP_append, hite1]
              simp [isProcessingPageEvent]
              omega
            · simp only [List.countP_cons, List.countP_append, hite2]
              simp [isClickEvent]
              omega
            · rw [he, hsc]
            · rw [he, hmc]
            · rw [he]
              have e1 : ({ σ with
              st := { σ.st with
                companyQueue := (companiesData.filter (fun it => !(isDuplicateCompany (some ⟨some it.1, some it.2⟩) σ.storage))).map Prod.fst,
                totalCompaniesFound := σ.st.totalCompaniesFound + companiesData.length,
                currentCompanyIndex := 0 }
              trace := (σ.trace ++ [Event.statusProcessingPage σ.st.currentPage]) ++
                [Event.companiesFound companiesData.length σ.st.currentPage] ++ (if companiesData.length - (companiesData.filter (fun it => !(isDuplicateCompany (some ⟨some it.1, some it.2⟩) σ.storage))).length ≠ 0 then [Event.statusPageSummary σ.st.currentPage] else []) ++
                [Event.statusAllDup σ.st.currentPage] } : Sys).st.startPage = σ.st.startPage := rfl
              have e2 : ({ σ with
              st := { σ.st with
                companyQueue := (companiesData.filter (fun it => !(isDuplicateCompany (some ⟨some it.1, some it.2⟩) σ.storage))).map Prod.fst,
                totalCompaniesFound := σ.st.totalCompaniesFound + companiesData.length,
                currentCompanyIndex := 0 }
              trace := (σ.trace ++ [Event.statusProcessingPage σ.st.currentPage]) ++
                [Event.companiesFound companiesData.length σ.st.currentPage] ++ (if companiesData.length - (companiesData.filter (fun it => !(isDuplicateCompany (some ⟨some it.1, some it.2⟩) σ.storage))).length ≠ 0 then [Event.statusPageSummary σ.st.currentPage] else []) ++
                [Event.statusAllDup σ.st.currentPage] } : Sys).st.maxPages = σ.st.maxPages := rfl
              omega

/-- C3: the page budget caps the visit count.  For any drive oracle and any
state within budget, the remaining run emits at most the remaining budget of
`Processing page` statuses, strictly fewer next-page clicks, leaves the
`startPage`/`maxPages` configuration untouched, and keeps
`currentPage - startPage + 1 ≤ maxPages`.  Moreover, for every budget
`N ∈ [1, 20]`, the run over the always-advancing oracle (further pages always
available) processes exactly `N` pages, attempts exactly `N - 1` advances,
ends on page `N`, and transitions to completion with the running flag
cleared. -/
theorem c3_page_budget_cap (env : Env) (fuel k : Nat) (σ : Sys)
    (hd : σ.st.currentPage - σ.st.startPage + 1 ≤ σ.st.maxPages)
    (hat : σ.activeTab = false) :
    (∃ Δ, (processCurrentPage env k fuel σ).trace = σ.trace ++ Δ ∧
        Δ.countP isProcessingPageEvent ≤
          (σ.st.maxPages - (σ.st.currentPage - σ.st.startPage)).toNat ∧
        Δ.countP isClickEvent ≤
          (σ.st.maxPages - (σ.st.currentPage - σ.st.startPage) - 1).toNat ∧
        (processCurrentPage env k fuel σ).st.startPage = σ.st.startPage ∧
        (processCurrentPage env k fuel σ).st.maxPages = σ.st.maxPages ∧
        (processCurrentPage env k fuel σ).st.currentPage - σ.st.startPage + 1 ≤
          σ.st.maxPages) ∧
    (∀ N : Nat, N ≤ 20 → 1 ≤ N →
      ((startScraping alwaysAdvanceEnv 1 (N : Int) 20 []).trace.countP
          isProcessingPageEvent = N ∧
        (startScraping alwaysAdvanceEnv 1 (N : Int) 20 []).trace.countP
          isClickEvent = N - 1 ∧
        (startScraping alwaysAdvanceEnv 1 (N : Int) 20 []).st.currentPage =
          1 + ((N : Int) - 1) ∧
        (startScraping alwaysAdvanceEnv 1 (N : Int) 20 []).st.isRunning = false ∧
        Event.scrapingComplete ∈
          (startScraping alwaysAdvanceEnv 1 (N : Int) 20 []).trace)) := by
  constructor
  · exact processCurrentPage_bound env fuel k σ hd hat
  · decide

/-- Concrete instance of the C3 theorem at a one-page-budget state. -/
theorem c3_witness :
    (∃ Δ, (processCurrentPage alwaysAdvanceEnv 0 2 c8σ).trace = c8σ.trace ++ Δ ∧
        Δ.countP isProcessingPageEvent ≤
          (c8σ.st.maxPages - (c8σ.st.currentPage - c8σ.st.startPage)).toNat ∧
        Δ.countP isClickEvent ≤
          (c8σ.st.maxPages - (c8σ.st.currentPage - c8σ.st.startPage) - 1).toNat ∧
        (processCurrentPage alwaysAdvanceEnv 0 2 c8σ).st.startPage = c8σ.st.startPage ∧
        (processCurrentPage alwaysAdvanceEnv 0 2 c8σ).st.maxPages = c8σ.st.maxPages ∧
        (processCurrentPage alwaysAdvanceEnv 0 2 c8σ).st.currentPage -
          c8σ.st.startPage + 1 ≤ c8σ.st.maxPages) ∧
    ((startScraping alwaysAdvanceEnv 1 (3 : Int) 20 []).trace.countP
        isProcessingPageEvent = 3 ∧
      (startScraping alwaysAdvanceEnv 1 (3 : Int) 20 []).trace.countP
        isClickEvent = 3 - 1 ∧
      (startScraping alwaysAdvanceEnv 1 (3 : Int) 20 []).st.currentPage =
        1 + ((3 : Int) - 1) ∧
      (startScraping alwaysAdvanceEnv 1 (3 : Int) 20 []).st.isRunning = false ∧
      Event.scrapingComplete ∈
        (startScraping alwaysAdvanceEnv 1 (3 : Int) 20 []).trace) :=
  ⟨(c3_page_budget_cap alwaysAdvanceEnv 2 0 c8σ (by decide) (by decide)).1,
   (c3_page_budget_cap alwaysAdvanceEnv 2 0 c8σ (by decide) (by decide)).2
     3 (by decide) (by decide)⟩

end Scraper
